import Mathlib

/-!
# Verification of the Conversation Tracking Engine

Shallow embedding of the conversation tracking engine
(`EnhancedConversationStorageManager` and its collaborators) of the
hypergranola-meeting-assistant repository, together with proofs and
refutations of the specified properties.

Modelling conventions:
* Timestamps (`Date` values, `Date.now()`) are milliseconds as `Int`;
  every operation that reads the clock takes an explicit `now` argument.
* JavaScript floating-point literals such as the compression ratio `0.3`
  are modelled as exact rationals (`3/10`); no verified property depends
  on the low bits of a float.
* `generateId` (wall clock + random suffix) is modelled by passing the
  fresh identifier explicitly as an argument; freshness is a hypothesis
  where a statement needs it.
* `Set` iteration order in JS preserves first insertion, hence the
  first-occurrence deduplication `dedupFirst`.
* Locale-dependent display formatting (`toLocaleTimeString`,
  `toLocaleString`) is abstracted to decimal rendering of the millisecond
  timestamp; no verified property inspects the formatted text.
* The session map (a JS object keyed by session id) is an insertion-ordered
  association list, matching `Object.keys` enumeration order for string keys.
-/

/-! ## Data model (src/models/conversation.ts) -/

/-- `EnhancedConversationMessage`. -/
structure Message where
  id : String
  timestamp : Int
  speakerId : String
  content : String
  isQuestion : Bool
  wordCount : Nat
  keywords : List String
  sentimentScore : ℚ
deriving DecidableEq, Repr

/-- `Speaker`. -/
structure Speaker where
  speakerId : String
  name : String
  firstDetected : Int
  messageCount : Nat
  lastActive : Int
  characteristics : List String
deriving DecidableEq, Repr

/-- `timeRange {start, end}`; the source field `end` is a Lean keyword and is
rendered `finish`. -/
structure TimeRange where
  start : Int
  finish : Int
deriving DecidableEq, Repr

/-- `CompressedMessage` (a compressed group). -/
structure CompressedMessage where
  timeRange : TimeRange
  speakerId : String
  summary : String
  originalMessageIds : List String
  wordCount : Nat
  compressionRatio : ℚ
deriving DecidableEq, Repr

/-- `SpeakerStats`. -/
structure SpeakerStats where
  speakerId : String
  messageCount : Nat
  wordCount : Nat
  questionsAsked : Nat
  activeTimeMinutes : ℚ
deriving DecidableEq, Repr

/-- `SessionSummary`. -/
structure SessionSummary where
  timestamp : Int
  content : String
  timeRange : TimeRange
  keyPoints : List String
  speakerStats : List SpeakerStats
deriving DecidableEq, Repr

/-- `EnhancedConversationSession`. -/
structure Session where
  sessionId : String
  startTime : Int
  endTime : Option Int
  messages : List Message
  summaries : List SessionSummary
  speakers : List Speaker
  isActive : Bool
  compressedHistory : List CompressedMessage
  title : String
  metadata : List (String × String)
deriving DecidableEq, Repr

/-- `ConversationStorage.settings` / `ConversationSystemConfig.storage`. -/
structure StorageSettings where
  autoSaveInterval : Option Nat
  maxStorageSizeMB : Option ℚ
deriving DecidableEq, Repr

/-- `ConversationStorage`, the persisted envelope. -/
structure Storage where
  currentSessionId : Option String
  sessions : List (String × Session)
  version : String
  settings : StorageSettings
deriving DecidableEq, Repr

/-- `CompressionConfig`. -/
structure CompressionConfig where
  threshold : Nat
  ratio : ℚ
  minMessagesPerGroup : Nat
  timeGroupingMinutes : ℚ
deriving DecidableEq, Repr

/-- `SummaryConfig`. -/
structure SummaryConfig where
  intervalMinutes : ℚ
  maxKeyPoints : Nat
  includeTimestamps : Bool
  includeSpeakerStats : Bool
  maxMessageLengthInSummary : Nat
deriving DecidableEq, Repr

/-- `ConversationSystemConfig.speakerDetection`. -/
structure SpeakerDetectionConfig where
  similarityThreshold : ℚ
  minCharacteristicsForMatch : Nat
deriving DecidableEq, Repr

/-- `ConversationSystemConfig`. -/
structure ConversationSystemConfig where
  storage : StorageSettings
  compression : CompressionConfig
  summarization : SummaryConfig
  speakerDetection : SpeakerDetectionConfig
deriving DecidableEq, Repr

/-- `DEFAULT_CONFIG` (src/models/conversation.ts). -/
def DEFAULT_CONFIG : ConversationSystemConfig :=
  { storage := { autoSaveInterval := some 5000, maxStorageSizeMB := some (mkRat 9 2) }
    compression :=
      { threshold := 50, ratio := mkRat 3 10, minMessagesPerGroup := 3,
        timeGroupingMinutes := 2 }
    summarization :=
      { intervalMinutes := 1, maxKeyPoints := 5, includeTimestamps := true,
        includeSpeakerStats := true, maxMessageLengthInSummary := 80 }
    speakerDetection := { similarityThreshold := mkRat 3 10, minCharacteristicsForMatch := 2 } }

/-- `SpeakerDetectionResult`. -/
structure SpeakerDetectionResult where
  speakerId : String
  confidence : ℚ
  characteristics : List String
  isNewSpeaker : Bool
deriving DecidableEq, Repr

/-! ## String utilities

JS string builtins are modelled by structurally recursive functions on the
character list (Lean's own `String` loops do not reduce inside the kernel;
these models do, so that concrete executions can be checked by `decide`). -/

/-- Substring occurrence on character lists. -/
def listContainsSub (pat : List Char) : List Char → Bool
  | [] => pat.isEmpty
  | c :: rest => pat.isPrefixOf (c :: rest) || listContainsSub pat rest

/-- JS `String.prototype.includes`. -/
def strContains (s pat : String) : Bool :=
  listContainsSub pat.data s.data

/-- JS `String.prototype.trim` (whitespace stripped from both ends). -/
def trimChars (l : List Char) : List Char :=
  ((l.dropWhile Char.isWhitespace).reverse.dropWhile Char.isWhitespace).reverse

/-- Split at every character satisfying `p` (the semantics of
`String.split`); adjacent separators produce empty pieces. -/
def splitCharsBy (p : Char → Bool) (l : List Char) : List (List Char) :=
  l.foldr
    (fun c acc =>
      match acc with
      | [] => [[c]]
      | cur :: rest => if p c then [] :: cur :: rest else (c :: cur) :: rest)
    [[]]

/-- JS `String.prototype.toLowerCase` (ASCII; message text in scope is ASCII). -/
def jsToLower (s : String) : String :=
  ⟨s.data.map Char.toLower⟩

/-- JS `String.prototype.startsWith`. -/
def jsStartsWith (s pat : String) : Bool :=
  pat.data.isPrefixOf s.data

/-- JS `String.prototype.endsWith`. -/
def jsEndsWith (s pat : String) : Bool :=
  pat.data.reverse.isPrefixOf s.data.reverse

/-- JS `String.prototype.substring(0, k)`. -/
def jsSubstring (s : String) (k : Nat) : String :=
  ⟨s.data.take k⟩

/-- `calculateWordCount`: `text.trim().split(/\s+/).length`. Splitting the
trimmed text on whitespace runs yields one token per run of non-whitespace;
an all-whitespace input yields the single token `""`, hence count 1. -/
def calculateWordCount (text : String) : Nat :=
  let t := trimChars text.data
  if t = [] then 1
  else ((splitCharsBy Char.isWhitespace t).filter (fun w => w ≠ [])).length

/-- Detects a run of three consecutive ASCII uppercase letters
(the regex `[A-Z]{3,}` in `analyzeMessageCharacteristics`). -/
def hasUpperRun3 : List Char → Bool
  | a :: b :: c :: rest =>
    (a.isUpper && b.isUpper && c.isUpper) || hasUpperRun3 (b :: c :: rest)
  | _ => false

/-- First-occurrence deduplication: the iteration order of a JS `Set`
built from a list. -/
def dedupFirst {α : Type} [DecidableEq α] (l : List α) : List α :=
  l.foldl (fun acc x => if x ∈ acc then acc else acc ++ [x]) []

/-! ## Speaker analysis (conversationStorage.ts) -/

/-- `analyzeMessageCharacteristics`. -/
def analyzeMessageCharacteristics (message : String) : List String :=
  let lowerMessage := jsToLower message
  let wordCount := calculateWordCount message
  (if wordCount < 10 then ["short_messages"]
   else if wordCount < 30 then ["medium_messages"]
   else ["long_messages"])
  ++ (if strContains message "?" then
        ["asks_questions"]
        ++ (if jsStartsWith lowerMessage "how " then ["how_questions"] else [])
        ++ (if jsStartsWith lowerMessage "what " then ["what_questions"] else [])
        ++ (if jsStartsWith lowerMessage "why " then ["why_questions"] else [])
        ++ (if jsStartsWith lowerMessage "when " then ["when_questions"] else [])
        ++ (if jsStartsWith lowerMessage "where " then ["where_questions"] else [])
      else [])
  ++ (if strContains message "!" then ["expressive"] else [])
  ++ (if strContains lowerMessage "please" || strContains lowerMessage "thank"
      then ["polite"] else [])
  ++ (if strContains lowerMessage "i think" || strContains lowerMessage "i believe"
      then ["opinionated"] else [])
  ++ (if strContains message "\n" then ["multi_line"] else [])
  ++ (if hasUpperRun3 message.toList then ["uses_capitals"] else [])
  ++ (if strContains lowerMessage "can you" || strContains lowerMessage "could you"
      then ["requests"] else [])
  ++ (if strContains lowerMessage "tell me" || strContains lowerMessage "explain"
      then ["seeking_info"] else [])

/-- `calculateCharacteristicSimilarity`: the Jaccard index of the two tag
sets. On two empty sets the JS code produces `NaN` (`0/0`), which fails every
`>=` comparison; rational `0/0 = 0` likewise fails comparison against a
positive threshold. -/
def calculateCharacteristicSimilarity (characteristicsA characteristicsB : List String) : ℚ :=
  let setA := dedupFirst characteristicsA
  let setB := dedupFirst characteristicsB
  let inter := setA.filter (fun x => x ∈ setB)
  let union := dedupFirst (setA ++ setB)
  Rat.divInt inter.length union.length

/-- Similarity of a speaker's accumulated tag set to a fresh feature set. -/
def jaccardTo (chars : List String) (sp : Speaker) : ℚ :=
  calculateCharacteristicSimilarity sp.characteristics chars

/-- The fold body of the best-match search in `detectSpeaker`. -/
def bestMatchStep (chars : List String) (best : Option (Speaker × ℚ)) (speaker : Speaker) :
    Option (Speaker × ℚ) :=
  let similarity := calculateCharacteristicSimilarity speaker.characteristics chars
  match best with
  | none => some (speaker, similarity)
  | some (bs, bsim) =>
    if similarity > bsim then some (speaker, similarity) else some (bs, bsim)

/-- The new-speaker branch at the end of `detectSpeaker`. -/
def newSpeakerResult (session : Session) (characteristics : List String) :
    SpeakerDetectionResult :=
  { speakerId := "speaker_" ++ toString (session.speakers.length + 1)
    confidence := 1
    characteristics := characteristics
    isNewSpeaker := true }

/-- The recency-heuristic fallback of `detectSpeaker` (reached when no
speaker meets the similarity threshold). -/
def detectSpeakerFallback (session : Session) (characteristics : List String) (now : Int) :
    SpeakerDetectionResult :=
  match session.messages.getLast? with
  | some lastMessage =>
    if now - lastMessage.timestamp < 30000 then
      { speakerId := lastMessage.speakerId
        confidence := mkRat 8 10
        characteristics := characteristics
        isNewSpeaker := false }
    else newSpeakerResult session characteristics
  | none => newSpeakerResult session characteristics

/-- `detectSpeaker`. -/
def detectSpeaker (cfg : ConversationSystemConfig) (sessionOpt : Option Session)
    (content : String) (now : Int) : SpeakerDetectionResult :=
  match sessionOpt with
  | none =>
    { speakerId := "speaker_1", confidence := 1
      characteristics := analyzeMessageCharacteristics content, isNewSpeaker := true }
  | some session =>
    let characteristics := analyzeMessageCharacteristics content
    if session.speakers.isEmpty then
      { speakerId := "speaker_1", confidence := 1
        characteristics := characteristics, isNewSpeaker := true }
    else
      match session.speakers.foldl (bestMatchStep characteristics) none with
      | some (sp, sim) =>
        if cfg.speakerDetection.similarityThreshold ≤ sim then
          { speakerId := sp.speakerId, confidence := sim
            characteristics := characteristics, isNewSpeaker := false }
        else detectSpeakerFallback session characteristics now
      | none => detectSpeakerFallback session characteristics now

/-- Similarity of a speaker's accumulated tag set to the feature set of a
message content, as used by `detectSpeaker`. -/
def simTo (content : String) (sp : Speaker) : ℚ :=
  jaccardTo (analyzeMessageCharacteristics content) sp

/-! ## Utility methods (conversationStorage.ts) -/

/-- The stop-word list of `extractKeywords`. -/
def commonWords : List String :=
  ["the", "a", "an", "and", "or", "but", "in", "on", "at", "to", "for", "of",
   "with", "is", "are", "was", "were", "i", "you", "he", "she", "it", "we", "they"]

/-- `extractKeywords`. -/
def extractKeywords (content : String) : List String :=
  let words := (splitCharsBy Char.isWhitespace (jsToLower content).data).map
    (fun l => (⟨l⟩ : String))
  (words.filter (fun word => word.length > 3 ∧ word ∉ commonWords)).take 5

/-- The positive word list of `calculateSentimentScore`. -/
def positiveWords : List String :=
  ["good", "great", "excellent", "wonderful", "fantastic", "amazing", "awesome", "perfect"]

/-- The negative word list of `calculateSentimentScore`. -/
def negativeWords : List String :=
  ["bad", "terrible", "awful", "horrible", "worst", "problem", "issue", "error", "fail"]

/-- `calculateSentimentScore`: +-0.1 per matched word, clamped to [-1, 1].
The JS accumulation of float 0.1 is modelled as exact tenths. -/
def calculateSentimentScore (content : String) : ℚ :=
  let lowerContent := jsToLower content
  let score : ℚ := Rat.divInt
    (((positiveWords.filter (fun w => strContains lowerContent w)).length : Int) -
     ((negativeWords.filter (fun w => strContains lowerContent w)).length : Int)) 10
  min 1 (max (-1) score)

/-- Replace the first element satisfying `p` (the mutation applied to the
result of `Array.prototype.find`). -/
def updateFirstBy {α : Type} (p : α → Bool) (f : α → α) : List α → List α
  | [] => []
  | x :: rest => if p x then f x :: rest else x :: updateFirstBy p f rest

/-- `ensureSpeakerExists`: create the speaker when absent, then increment its
count, refresh `lastActive` and accumulate characteristics. -/
def ensureSpeakerExists (session : Session) (speakerId : String)
    (detectionResult : SpeakerDetectionResult) (now : Int) : Session :=
  let speakers1 :=
    if session.speakers.any (fun s => s.speakerId = speakerId) then session.speakers
    else session.speakers ++
      [{ speakerId := speakerId
         name := "Speaker " ++ toString (session.speakers.length + 1)
         firstDetected := now
         messageCount := 0
         lastActive := now
         characteristics := detectionResult.characteristics }]
  { session with
      speakers := updateFirstBy (fun s => s.speakerId = speakerId)
        (fun speaker =>
          { speaker with
              messageCount := speaker.messageCount + 1
              lastActive := now
              characteristics :=
                dedupFirst (speaker.characteristics ++ detectionResult.characteristics) })
        speakers1 }

/-! ## Stable sorting (JS `Array.prototype.sort` is stable) -/

/-- Insert `x` before the first strictly-greater element (equal elements keep
their original relative order). -/
def insertSortedBy {α : Type} (lt : α → α → Bool) (x : α) : List α → List α
  | [] => [x]
  | y :: ys => if lt x y then x :: y :: ys else y :: insertSortedBy lt x ys

/-- Stable sort: ascending in the strict order `lt`. -/
def stableSortBy {α : Type} (lt : α → α → Bool) (l : List α) : List α :=
  l.foldl (fun acc x => insertSortedBy lt x acc) []

/-! ## Context compression (conversationStorage.ts) -/

/-- `formatTimeForDisplay` renders via `toLocaleTimeString`; locale formatting
is abstracted to decimal rendering of the millisecond timestamp (no verified
property inspects the rendered text). -/
def formatTimeForDisplay (date : Int) : String :=
  toString date

/-- Whether a message id is already folded into some compressed group. -/
def isCovered (session : Session) (msgId : String) : Bool :=
  session.compressedHistory.any (fun c => msgId ∈ c.originalMessageIds)

/-- Accumulator of the grouping loop in `groupMessagesForCompression`. -/
structure GroupingState where
  groups : List (List Message)
  currentGroup : List Message
  currentSpeaker : Option String
  groupStartTime : Option Int
deriving Repr

/-- One iteration of the grouping loop: start a new group when the speaker
changes or the gap since the group start exceeds the time-grouping window. -/
def groupStep (cfg : ConversationSystemConfig) (st : GroupingState) (message : Message) :
    GroupingState :=
  let timeGapMinutes : ℚ :=
    match st.groupStartTime with
    | some t0 => Rat.divInt (message.timestamp - t0) (60 * 1000)
    | none => 0
  let boundary : Bool :=
    match st.currentSpeaker with
    | none => true
    | some sp =>
      decide (message.speakerId ≠ sp) ||
      decide (timeGapMinutes > cfg.compression.timeGroupingMinutes)
  if boundary then
    { groups := if st.currentGroup.length > 0 then st.groups ++ [st.currentGroup] else st.groups
      currentGroup := [message]
      currentSpeaker := some message.speakerId
      groupStartTime := some message.timestamp }
  else { st with currentGroup := st.currentGroup ++ [message] }

/-- The grouping loop of `groupMessagesForCompression` with the trailing
flush of the last open group, before the minimum-size filter. -/
def groupedRaw (cfg : ConversationSystemConfig) (messages : List Message) :
    List (List Message) :=
  let st := messages.foldl (groupStep cfg) ⟨[], [], none, none⟩
  if st.currentGroup.length > 0 then st.groups ++ [st.currentGroup] else st.groups

/-- `groupMessagesForCompression`. -/
def groupMessagesForCompression (cfg : ConversationSystemConfig)
    (messages : List Message) : List (List Message) :=
  (groupedRaw cfg messages).filter
    (fun group => group.length ≥ cfg.compression.minMessagesPerGroup)

/-- The selection cap of `createCompressedMessage`:
`Math.max(1, Math.floor(originalCount * ratio))`. -/
def compressedCount (cfg : ConversationSystemConfig) (originalCount : Nat) : Nat :=
  max 1 (Int.toNat (Rat.floor
    (Rat.divInt ((originalCount : Int) * cfg.compression.ratio.num)
      (cfg.compression.ratio.den : Int))))

/-- `selectKeyMessagesForCompression`: always push first and last, then
questions while below the cap, then remaining messages by word count
descending while below the cap, finally truncate to the cap. Membership
tests (`includes`) compare JS object references; on duplicate-free groups
this coincides with the value equality used here. -/
def selectKeyMessagesForCompression (messages : List Message) (maxCount : Nat) :
    List Message :=
  let keyMessages : List Message :=
    match messages.head? with
    | some m => [m]
    | none => []
  let keyMessages :=
    if messages.length > 1 then
      keyMessages ++ (match messages.getLast? with | some m => [m] | none => [])
    else keyMessages
  let keyMessages := messages.foldl
    (fun acc msg =>
      if (msg.isQuestion = true ∧ msg ∉ acc) ∧ acc.length < maxCount then acc ++ [msg]
      else acc) keyMessages
  let sortedByLength := stableSortBy (fun a b => b.wordCount < a.wordCount) messages
  let keyMessages := sortedByLength.foldl
    (fun acc msg =>
      if msg ∉ acc ∧ acc.length < maxCount then acc ++ [msg] else acc) keyMessages
  keyMessages.take maxCount

/-- `generateCompressedSummary`. -/
def generateCompressedSummary (messages : List Message) (maxMessages : Nat) : String :=
  let keyMessages := selectKeyMessagesForCompression messages maxMessages
  String.intercalate " | " (keyMessages.map (fun msg =>
    formatTimeForDisplay msg.timestamp ++ ": " ++ jsSubstring msg.content 100 ++ "..."))

/-- `createCompressedMessage`. The source indexes `messages[0]`, so the empty
case is unreachable (groups are non-empty); it is given a vacuous value. -/
def createCompressedMessage (cfg : ConversationSystemConfig) (messages : List Message) :
    CompressedMessage :=
  match messages with
  | [] =>
    { timeRange := ⟨0, 0⟩, speakerId := "", summary := "",
      originalMessageIds := [], wordCount := 0, compressionRatio := 1 }
  | first :: rest =>
    let startTime := first.timestamp
    let endTime := ((first :: rest).getLast (List.cons_ne_nil first rest)).timestamp
    let messageIds := (first :: rest).map (fun m => m.id)
    let totalWords := (first :: rest).foldl (fun sum m => sum + m.wordCount) 0
    let originalCount := (first :: rest).length
    let cap := compressedCount cfg originalCount
    { timeRange := ⟨startTime, endTime⟩
      speakerId := first.speakerId
      summary := generateCompressedSummary (first :: rest) cap
      originalMessageIds := messageIds
      wordCount := totalWords
      compressionRatio := Rat.divInt cap originalCount }

/-- `compressContext`. -/
def compressContext (cfg : ConversationSystemConfig) (session : Session) : Session :=
  let messagesToCompress := stableSortBy (fun a b => a.timestamp < b.timestamp)
    (session.messages.filter (fun msg => ¬ isCovered session msg.id))
  if messagesToCompress.length < cfg.compression.minMessagesPerGroup then session
  else
    let compressedGroups := groupMessagesForCompression cfg messagesToCompress
    { session with
        compressedHistory :=
          session.compressedHistory ++ compressedGroups.map (createCompressedMessage cfg) }

/-- `checkForContextCompression` (the performance check only logs and is
omitted). -/
def checkForContextCompression (cfg : ConversationSystemConfig) (session : Session)
    (now : Int) : Session :=
  if session.messages.length ≤ cfg.compression.threshold then session
  else
    let lastCompression :=
      match session.compressedHistory.getLast? with
      | some c => c.timeRange.finish
      | none => session.startTime
    if Rat.divInt (now - lastCompression) (60 * 1000) ≥
        cfg.compression.timeGroupingMinutes then
      compressContext cfg session
    else session

/-! ## Summary generation (conversationStorage.ts) -/

/-- `speakerId.split('_')[1]` (JS renders a missing index as `undefined`). -/
def speakerNumberOf (speakerId : String) : String :=
  (speakerId.splitOn "_").getD 1 "undefined"

/-- `createSessionSummary`. The speaker-stats `Map` keyed by speaker id is an
insertion-ordered association list. -/
def createSessionSummary (cfg : ConversationSystemConfig) (messages : List Message)
    (timeRange : TimeRange) (now : Int) : SessionSummary :=
  let initStats : List SpeakerStats := messages.foldl
    (fun acc msg =>
      if acc.any (fun s => s.speakerId = msg.speakerId) then acc
      else acc ++
        [{ speakerId := msg.speakerId, messageCount := 0, wordCount := 0,
           questionsAsked := 0, activeTimeMinutes := 0 }]) []
  let processed := messages.foldl
    (fun (st : List SpeakerStats × List String) msg =>
      let stats := updateFirstBy (fun s => s.speakerId = msg.speakerId)
        (fun s =>
          { s with
              messageCount := s.messageCount + 1
              wordCount := s.wordCount + msg.wordCount
              questionsAsked := s.questionsAsked + (if msg.isQuestion then 1 else 0) })
        st.1
      let keyPoints := st.2 ++
        (if msg.isQuestion then
          ["Q (" ++ formatTimeForDisplay msg.timestamp ++ "): " ++
            jsSubstring msg.content cfg.summarization.maxMessageLengthInSummary ++ "..."]
         else if msg.wordCount > 20 then
          ["• (" ++ formatTimeForDisplay msg.timestamp ++ ") " ++
            jsSubstring msg.content cfg.summarization.maxMessageLengthInSummary ++ "..."]
         else [])
      (stats, keyPoints)) (initStats, [])
  let durationMinutes : ℚ := Rat.divInt (timeRange.finish - timeRange.start) (60 * 1000)
  let speakerStats := processed.1.map (fun s => { s with activeTimeMinutes := durationMinutes })
  let keyPoints := processed.2
  let timePeriod :=
    formatTimeForDisplay timeRange.start ++ " - " ++ formatTimeForDisplay timeRange.finish
  let summaryContent :=
    "Summary " ++ timePeriod ++ ":\n\n" ++ String.intercalate "\n" keyPoints ++
    "\n\nSpeaker Activity:\n" ++
    String.intercalate "\n" (speakerStats.map (fun s =>
      "• Speaker " ++ speakerNumberOf s.speakerId ++ ": " ++
      toString s.messageCount ++ " messages, " ++ toString s.questionsAsked ++ " questions"))
  { timestamp := now
    content := summaryContent
    timeRange := timeRange
    keyPoints := keyPoints.take cfg.summarization.maxKeyPoints
    speakerStats := speakerStats }

/-- `generateTimedSummary`: summarize the window `[lastSummaryTime, now]`;
if no message falls in the window the session is returned unchanged. -/
def generateTimedSummary (cfg : ConversationSystemConfig) (session : Session)
    (lastSummaryTime : Option Int) (now : Int) : Session :=
  let start := lastSummaryTime.getD session.startTime
  let messagesInPeriod := session.messages.filter
    (fun msg => start ≤ msg.timestamp ∧ msg.timestamp ≤ now)
  if messagesInPeriod.length = 0 then session
  else
    { session with
        summaries := session.summaries ++
          [createSessionSummary cfg messagesInPeriod ⟨start, now⟩ now] }

/-- `checkForSummaryGeneration`: returns the updated session and the updated
`lastSummaryTime` field of the manager. When the interval has elapsed the
clock is reset to `now` regardless of whether a summary was emitted. -/
def checkForSummaryGeneration (cfg : ConversationSystemConfig) (session : Session)
    (lastSummaryTime : Option Int) (now : Int) : Session × Option Int :=
  match lastSummaryTime with
  | none => (session, some session.startTime)
  | some t =>
    let minutesSinceLastSummary : ℚ := Rat.divInt (now - t) (60 * 1000)
    if minutesSinceLastSummary ≥ cfg.summarization.intervalMinutes then
      (generateTimedSummary cfg session (some t) now, some now)
    else (session, some t)

/-! ## Session store (conversationStorage.ts) -/

/-- Look up a session by id (`this.storage.sessions[sessionId]`). -/
def lookupSession (storage : Storage) (sessionId : String) : Option Session :=
  (storage.sessions.find? (fun kv => kv.1 = sessionId)).map (fun kv => kv.2)

/-- `getCurrentSession`. -/
def getCurrentSession (storage : Storage) : Option Session :=
  match storage.currentSessionId with
  | none => none
  | some sid => lookupSession storage sid

/-- `getAllSessions`: all sessions sorted by start time, most recent first. -/
def getAllSessions (storage : Storage) : List Session :=
  stableSortBy (fun a b => b.startTime < a.startTime)
    (storage.sessions.map (fun kv => kv.2))

/-- In-place update of the session stored under `sessionId` (mutation of the
live object held in the JS sessions map). -/
def updateSessionBy (storage : Storage) (sessionId : String) (f : Session → Session) :
    Storage :=
  { storage with
      sessions := updateFirstBy (fun kv => kv.1 = sessionId)
        (fun kv => (kv.1, f kv.2)) storage.sessions }

/-- Mutation of the current session object, if any. -/
def updateCurrentSession (storage : Storage) (f : Session → Session) : Storage :=
  match storage.currentSessionId with
  | none => storage
  | some sid =>
    match lookupSession storage sid with
    | none => storage
    | some _ => updateSessionBy storage sid f

/-- `this.storage.sessions[sessionId] = newSession`: overwrite in place when
the key exists, otherwise append (JS object key insertion order). -/
def setSession (storage : Storage) (sessionId : String) (session : Session) : Storage :=
  if storage.sessions.any (fun kv => kv.1 = sessionId) then
    updateSessionBy storage sessionId (fun _ => session)
  else { storage with sessions := storage.sessions ++ [(sessionId, session)] }

/-- The manager-level mutable state: the storage envelope plus the
`lastSummaryTime` field (persistence side effects do not alter it). -/
structure ManagerState where
  storage : Storage
  lastSummaryTime : Option Int
deriving DecidableEq, Repr

/-- `startNewSession`; `sessionId` stands for the generated fresh id and
`now` for the single timestamp taken at the start. -/
def startNewSession (st : ManagerState) (title : Option String) (sessionId : String)
    (now : Int) : ManagerState :=
  let storage1 := updateCurrentSession st.storage
    (fun s => { s with endTime := some now, isActive := false })
  let newSession : Session :=
    { sessionId := sessionId
      startTime := now
      endTime := none
      messages := []
      summaries := []
      speakers := []
      isActive := true
      compressedHistory := []
      title := title.getD ("Conversation " ++ toString now)
      metadata := [("environment", "browser"), ("version", "2.0")] }
  let storage2 := setSession { storage1 with currentSessionId := some sessionId }
    sessionId newSession
  { storage := storage2, lastSummaryTime := some now }

/-- `continueSession`. -/
def continueSession (st : ManagerState) (sessionId : String) (now : Int) :
    ManagerState × Bool :=
  match lookupSession st.storage sessionId with
  | none => (st, false)
  | some _ =>
    let storage1 := updateCurrentSession st.storage
      (fun s => { s with endTime := some now, isActive := false })
    let storage2 := { storage1 with currentSessionId := some sessionId }
    let storage3 := updateSessionBy storage2 sessionId
      (fun s => { s with isActive := true, endTime := none })
    ({ storage := storage3, lastSummaryTime := some now }, true)

/-- `endCurrentSession`. -/
def endCurrentSession (st : ManagerState) (now : Int) : ManagerState :=
  match getCurrentSession st.storage with
  | none => st
  | some _ =>
    let storage1 := updateCurrentSession st.storage
      (fun s => { s with endTime := some now, isActive := false })
    { st with storage := { storage1 with currentSessionId := none } }

/-- `cleanupOldSessions`: keep only the 10 most-recently-started sessions;
clear the current pointer when the current session is removed. -/
def cleanupOldSessions (storage : Storage) : Storage :=
  let sessionIds := (stableSortBy (fun a b => b.2.startTime < a.2.startTime)
    storage.sessions).map (fun kv => kv.1)
  if sessionIds.length > 10 then
    let sessionsToRemove := sessionIds.drop 10
    let storage1 :=
      { storage with
          sessions := storage.sessions.filter (fun kv => kv.1 ∉ sessionsToRemove) }
    if (match storage.currentSessionId with
        | some cid => decide (cid ∈ sessionsToRemove)
        | none => false) then
      { storage1 with currentSessionId := none }
    else storage1
  else storage

/-- The error classification of `handleStorageError`. -/
inductive StorageErrorKind
  | quotaExceeded
  | other
deriving DecidableEq, Repr

/-- `handleStorageError`: on `QuotaExceededError` clean up old sessions and
schedule exactly one retried save (the returned flag); any other error leaves
the storage untouched. -/
def handleStorageError (error : StorageErrorKind) (storage : Storage) : Storage × Bool :=
  match error with
  | .quotaExceeded => (cleanupOldSessions storage, true)
  | .other => (storage, false)

/-! ## Message handling (conversationStorage.ts) -/

/-- The vacuous message returned on the unreachable no-session fallthrough
of `addMessageCore`. -/
def vacuousMessage : Message :=
  { id := "", timestamp := 0, speakerId := "", content := "",
    isQuestion := false, wordCount := 0, keywords := [], sentimentScore := 0 }

/-- The body of `addMessage` applied to the current session: attribute the
speaker, ensure the speaker record, append the message, then run the summary
and compression checks in that order. -/
def addMessageToSession (cfg : ConversationSystemConfig) (st : ManagerState)
    (content : String) (isQuestion : Bool) (now : Int) (msgId : String)
    (sid : String) (session : Session) : ManagerState × Message :=
  let speakerResult := detectSpeaker cfg (some session) content now
  let speakerId := speakerResult.speakerId
  let session1 := ensureSpeakerExists session speakerId speakerResult now
  let message : Message :=
    { id := msgId
      timestamp := now
      speakerId := speakerId
      content := content
      isQuestion := isQuestion
      wordCount := calculateWordCount content
      keywords := extractKeywords content
      sentimentScore := calculateSentimentScore content }
  let session2 := { session1 with messages := session1.messages ++ [message] }
  let checked := checkForSummaryGeneration cfg session2 st.lastSummaryTime now
  let session4 := checkForContextCompression cfg checked.1 now
  ({ storage := updateSessionBy st.storage sid (fun _ => session4)
     lastSummaryTime := checked.2 }, message)

/-- The body of `addMessage` once a current session is guaranteed. `msgId`
stands for the generated fresh message id, `now` for the timestamps taken
during the call. The fallthrough when no current session exists is
unreachable from `addMessage` and returns the state unchanged with a vacuous
message. -/
def addMessageCore (cfg : ConversationSystemConfig) (st : ManagerState) (content : String)
    (isQuestion : Bool) (now : Int) (msgId : String) : ManagerState × Message :=
  match st.storage.currentSessionId with
  | none => (st, vacuousMessage)
  | some sid =>
    match lookupSession st.storage sid with
    | none => (st, vacuousMessage)
    | some session => addMessageToSession cfg st content isQuestion now msgId sid session

/-- `addMessage`: when there is no current session, a new one is started
first and the call proceeds against it (the source recurses once after
`startNewSession`). `newSessionId` stands for the fresh session id generated
in that case. -/
def addMessage (cfg : ConversationSystemConfig) (st : ManagerState) (content : String)
    (isQuestion : Bool) (now : Int) (msgId : String) (newSessionId : String) :
    ManagerState × Message :=
  match getCurrentSession st.storage with
  | none => addMessageCore cfg (startNewSession st none newSessionId now) content isQuestion now msgId
  | some _ => addMessageCore cfg st content isQuestion now msgId

/-! ## Transcript intake (src/utils/environment.ts) -/

/-- `processTranscript`: drops empty or sub-3-character text before it
reaches `addMessage`; otherwise classifies the question hint and calls
`addMessage`. (The downstream AI-correction steps touch no engine state and
are omitted.) -/
def processTranscript (cfg : ConversationSystemConfig) (st : ManagerState) (text : String)
    (now : Int) (msgId : String) (newSessionId : String) : ManagerState :=
  if trimChars text.data = [] ∨ text.length < 3 then st
  else
    let isQuestion := jsEndsWith text "?" ||
      strContains (jsToLower text) "how " ||
      strContains (jsToLower text) "what " ||
      strContains (jsToLower text) "why "
    (addMessage cfg st text isQuestion now msgId newSessionId).1

/-! ## Persistence load (conversationStorage.ts `loadFromStorage`)

The persisted document is modelled at the parsed-JSON level, with
timestamps in their serialized string form. Only the successful
version-2.0 migration path is modelled: timestamps are converted and
everything else is returned verbatim (in particular no field is
validated or recomputed). `parseDate` abstracts ISO-8601 parsing as
decimal parsing; the source leaves speaker timestamps unconverted at
runtime, which no verified property observes. -/

/-- Abstraction of `new Date(isoString).getTime()`. -/
def parseDate (s : String) : Int :=
  s.toInt?.getD 0

/-- A persisted message (timestamps serialized). -/
structure StoredMessage where
  id : String
  timestamp : String
  speakerId : String
  content : String
  isQuestion : Bool
  wordCount : Nat
  keywords : List String
  sentimentScore : ℚ
deriving DecidableEq, Repr

/-- A persisted speaker. -/
structure StoredSpeaker where
  speakerId : String
  name : String
  firstDetected : String
  messageCount : Nat
  lastActive : String
  characteristics : List String
deriving DecidableEq, Repr

/-- A persisted summary. -/
structure StoredSummary where
  timestamp : String
  content : String
  timeRangeStart : String
  timeRangeFinish : String
  keyPoints : List String
  speakerStats : List SpeakerStats
deriving DecidableEq, Repr

/-- A persisted compressed group. -/
structure StoredCompressed where
  timeRangeStart : String
  timeRangeFinish : String
  speakerId : String
  summary : String
  originalMessageIds : List String
  wordCount : Nat
  compressionRatio : ℚ
deriving DecidableEq, Repr

/-- A persisted session. -/
structure StoredSession where
  sessionId : String
  startTime : String
  endTime : Option String
  messages : List StoredMessage
  summaries : List StoredSummary
  speakers : List StoredSpeaker
  isActive : Bool
  compressedHistory : List StoredCompressed
  title : String
  metadata : List (String × String)
deriving DecidableEq, Repr

/-- The persisted envelope. -/
structure StoredStorage where
  currentSessionId : Option String
  sessions : List (String × StoredSession)
  version : String
  settings : StorageSettings
deriving DecidableEq, Repr

/-- Timestamp migration of one persisted session: dates are parsed, every
other field passes through unvalidated. -/
def migrateStoredSession (s : StoredSession) : Session :=
  { sessionId := s.sessionId
    startTime := parseDate s.startTime
    endTime := s.endTime.map parseDate
    messages := s.messages.map (fun m =>
      { id := m.id, timestamp := parseDate m.timestamp, speakerId := m.speakerId,
        content := m.content, isQuestion := m.isQuestion, wordCount := m.wordCount,
        keywords := m.keywords, sentimentScore := m.sentimentScore })
    summaries := s.summaries.map (fun sum =>
      { timestamp := parseDate sum.timestamp, content := sum.content,
        timeRange := ⟨parseDate sum.timeRangeStart, parseDate sum.timeRangeFinish⟩,
        keyPoints := sum.keyPoints, speakerStats := sum.speakerStats })
    speakers := s.speakers.map (fun sp =>
      { speakerId := sp.speakerId, name := sp.name,
        firstDetected := parseDate sp.firstDetected, messageCount := sp.messageCount,
        lastActive := parseDate sp.lastActive, characteristics := sp.characteristics })
    isActive := s.isActive
    compressedHistory := s.compressedHistory.map (fun c =>
      { timeRange := ⟨parseDate c.timeRangeStart, parseDate c.timeRangeFinish⟩,
        speakerId := c.speakerId, summary := c.summary,
        originalMessageIds := c.originalMessageIds, wordCount := c.wordCount,
        compressionRatio := c.compressionRatio })
    title := s.title
    metadata := s.metadata }

/-- The default empty envelope returned on missing or unusable data. -/
def defaultStorage (cfg : ConversationSystemConfig) : Storage :=
  { currentSessionId := none, sessions := [], version := "2.0", settings := cfg.storage }

/-- `loadFromStorage`, successful-migration path: a version-2.0 document has
its timestamps migrated and is otherwise returned verbatim; anything else
yields the default envelope. -/
def loadFromStorage (cfg : ConversationSystemConfig) (data : Option StoredStorage) :
    Storage :=
  match data with
  | none => defaultStorage cfg
  | some parsed =>
    if parsed.version = "2.0" then
      { currentSessionId := parsed.currentSessionId
        sessions := parsed.sessions.map (fun kv => (kv.1, migrateStoredSession kv.2))
        version := parsed.version
        settings := parsed.settings }
    else defaultStorage cfg

/-- Append the elements of `l` that are not already present, keeping first
occurrences (the ungated "push if absent" accumulation). -/
def pushUnique {α : Type} [DecidableEq α] (acc l : List α) : List α :=
  l.foldl (fun a x => if x ∉ a then a ++ [x] else a) acc

/-- Modelled from the spec's words (the refinement comparison for the key
selection): the first and the last message of the group, then all question
messages, then all messages ranked by word count descending, deduplicated
keeping first occurrences; the selection is the cap-length prefix of this
list. -/
def specKeySelection (messages : List Message) : List Message :=
  let mandatory : List Message :=
    match messages.head? with
    | some m => [m]
    | none => []
  let mandatory :=
    if messages.length > 1 then
      mandatory ++ (match messages.getLast? with | some m => [m] | none => [])
    else mandatory
  pushUnique mandatory
    ((messages.filter (fun m => m.isQuestion)) ++
     stableSortBy (fun a b => b.wordCount < a.wordCount) messages)

/-! ## Concrete fixtures used by witnesses and counterexamples -/

/-- A minimal concrete message. -/
def fixtureMsg (i : Nat) (sp : String) (t : Int) (q : Bool) (wc : Nat) : Message :=
  { id := "m" ++ toString i, timestamp := t, speakerId := sp,
    content := "c" ++ toString i, isQuestion := q, wordCount := wc,
    keywords := [], sentimentScore := 0 }

/-- A speaker whose accumulated tag set matches a short message exactly. -/
def w1speaker : Speaker :=
  { speakerId := "speaker_1", name := "Speaker 1", firstDetected := 0,
    messageCount := 1, lastActive := 0, characteristics := ["short_messages"] }

/-- A session with a single speaker. -/
def w1session : Session :=
  { sessionId := "s1", startTime := 0, endTime := none, messages := [],
    summaries := [], speakers := [w1speaker], isActive := true,
    compressedHistory := [], title := "t", metadata := [] }

/-- Seven messages in speaker pattern A A B B B A A, one second apart: the
middle run compresses on the first pass and the discarded A-runs become one
compressible run on the second pass. -/
def c2session : Session :=
  { sessionId := "s", startTime := 0, endTime := none,
    messages :=
      [fixtureMsg 1 "speaker_1" 0 false 1, fixtureMsg 2 "speaker_1" 1000 false 1,
       fixtureMsg 3 "speaker_2" 2000 false 1, fixtureMsg 4 "speaker_2" 3000 false 1,
       fixtureMsg 5 "speaker_2" 4000 false 1,
       fixtureMsg 6 "speaker_1" 5000 false 1, fixtureMsg 7 "speaker_1" 6000 false 1],
    summaries := [], speakers := [], isActive := true, compressedHistory := [],
    title := "", metadata := [] }

/-- A three-message group (the smallest compressible size). -/
def c4group : List Message :=
  [fixtureMsg 1 "a" 0 false 1, fixtureMsg 2 "a" 1000 true 5, fixtureMsg 3 "a" 2000 false 9]

/-- A seven-message single-speaker group (cap 2 at the default ratio). -/
def c4big : List Message :=
  [fixtureMsg 1 "a" 0 false 1, fixtureMsg 2 "a" 1000 false 2,
   fixtureMsg 3 "a" 2000 true 3, fixtureMsg 4 "a" 3000 false 4,
   fixtureMsg 5 "a" 4000 false 5, fixtureMsg 6 "a" 5000 false 6,
   fixtureMsg 7 "a" 6000 false 7]

/-- A manager state whose current session is `w1session`. -/
def c5state : ManagerState :=
  { storage :=
      { currentSessionId := some "s1"
        sessions := [("s1", w1session)]
        version := "2.0"
        settings := DEFAULT_CONFIG.storage }
    lastSummaryTime := some 0 }

/-- An empty session used as cleanup fixture content. -/
def c6sess (i : Nat) : Session :=
  { sessionId := "s" ++ toString i, startTime := 1000 * (i : Int), endTime := none,
    messages := [], summaries := [], speakers := [], isActive := false,
    compressedHistory := [], title := "", metadata := [] }

/-- Eleven stored sessions with ascending start times whose current session
is the oldest one. -/
def c6storage : Storage :=
  { currentSessionId := some "s1"
    sessions := (List.range 11).map (fun i => ("s" ++ toString (i + 1), c6sess (i + 1)))
    version := "2.0"
    settings := DEFAULT_CONFIG.storage }

/-- `speaker.messageCount` agrees with the actual number of messages
attributed to the speaker. -/
def speakerCountInvariant (session : Session) : Prop :=
  ∀ sp ∈ session.speakers,
    sp.messageCount =
      (session.messages.filter (fun m => m.speakerId = sp.speakerId)).length

/-- The compression bookkeeping invariant: the `originalMessageIds` of the
session's compressed groups are pairwise disjoint and reference only messages
still present in the raw list. -/
def compressionInvariant (session : Session) : Prop :=
  List.Pairwise
    (fun g1 g2 => ∀ mid ∈ g1.originalMessageIds, mid ∉ g2.originalMessageIds)
    session.compressedHistory ∧
  ∀ g ∈ session.compressedHistory, ∀ mid ∈ g.originalMessageIds,
    mid ∈ session.messages.map (fun m => m.id)

/-- A persisted session whose speaker claims five messages while the message
list is empty: well-formed for the migration, invalid for the counting
invariant. -/
def c9storedSession : StoredSession :=
  { sessionId := "s1", startTime := "0", endTime := none, messages := [],
    summaries := [],
    speakers :=
      [{ speakerId := "speaker_1", name := "Speaker 1", firstDetected := "0",
         messageCount := 5, lastActive := "0", characteristics := [] }],
    isActive := true, compressedHistory := [], title := "t", metadata := [] }

/-- A persisted envelope carrying `c9storedSession`. -/
def c9stored : StoredStorage :=
  { currentSessionId := some "s1", sessions := [("s1", c9storedSession)],
    version := "2.0", settings := DEFAULT_CONFIG.storage }

/-- The per-session invariant maintained by the engine: distinct message and
speaker ids, referential integrity of `speakerId`, the compression
bookkeeping invariant and the speaker-count invariant. -/
def SessionInv (s : Session) : Prop :=
  (s.messages.map (fun m => m.id)).Nodup ∧
  (s.speakers.map (fun sp => sp.speakerId)).Nodup ∧
  (∀ m ∈ s.messages, m.speakerId ∈ s.speakers.map (fun sp => sp.speakerId)) ∧
  compressionInvariant s ∧
  speakerCountInvariant s

/-- The store-level invariant: distinct session keys and `SessionInv` for
every stored session. -/
def StateInv (st : ManagerState) : Prop :=
  (st.storage.sessions.map Prod.fst).Nodup ∧
  ∀ kv ∈ st.storage.sessions, SessionInv kv.2

/-- The initial manager state: a fresh load with no persisted data. -/
def initialManagerState (cfg : ConversationSystemConfig) : ManagerState :=
  { storage := loadFromStorage cfg none, lastSummaryTime := none }

/-- One public operation of the manager. Identifiers produced by `generateId`
(wall clock plus random suffix) are modelled as arbitrary strings subject to
a freshness hypothesis. -/
inductive Step (cfg : ConversationSystemConfig) : ManagerState → ManagerState → Prop
  | startNew (st : ManagerState) (title : Option String) (sessionId : String) (now : Int)
      (hfresh : ∀ kv ∈ st.storage.sessions, kv.1 ≠ sessionId) :
      Step cfg st (startNewSession st title sessionId now)
  | add (st : ManagerState) (content : String) (isQuestion : Bool) (now : Int)
      (msgId newSessionId : String)
      (hfreshMsg : ∀ kv ∈ st.storage.sessions, ∀ m ∈ kv.2.messages, m.id ≠ msgId)
      (hfreshSession : ∀ kv ∈ st.storage.sessions, kv.1 ≠ newSessionId) :
      Step cfg st (addMessage cfg st content isQuestion now msgId newSessionId).1
  | continueS (st : ManagerState) (sessionId : String) (now : Int) :
      Step cfg st (continueSession st sessionId now).1
  | endCur (st : ManagerState) (now : Int) :
      Step cfg st (endCurrentSession st now)
  | cleanup (st : ManagerState) :
      Step cfg st { st with storage := cleanupOldSessions st.storage }

/-- States reachable from a fresh load through the public operations. -/
def Reachable (cfg : ConversationSystemConfig) (st : ManagerState) : Prop :=
  Relation.ReflTransGen (Step cfg) (initialManagerState cfg) st

/-! ## Theorems -/

lemma bestMatchStep_some (chars : List String) (s0 : Speaker) (q : ℚ) (h : Speaker) :
    bestMatchStep chars (some (s0, q)) h =
      if q < jaccardTo chars h then some (h, jaccardTo chars h) else some (s0, q) := rfl

lemma bestMatchFold_spec (chars : List String) :
    ∀ (l : List Speaker) (s0 : Speaker),
      ∃ sp, l.foldl (bestMatchStep chars) (some (s0, jaccardTo chars s0)) =
              some (sp, jaccardTo chars sp) ∧
        (sp = s0 ∨ sp ∈ l) ∧ jaccardTo chars s0 ≤ jaccardTo chars sp ∧
        ∀ x ∈ l, jaccardTo chars x ≤ jaccardTo chars sp := by
  intro l
  induction l with
  | nil =>
    intro s0
    exact ⟨s0, rfl, Or.inl rfl, le_refl _, by simp⟩
  | cons h t ih =>
    intro s0
    by_cases hgt : jaccardTo chars s0 < jaccardTo chars h
    · obtain ⟨sp, hfold, hmem, hle, hmax⟩ := ih h
      refine ⟨sp, ?_, ?_, ?_, ?_⟩
      · simpa [List.foldl_cons, bestMatchStep_some, hgt] using hfold
      · rcases hmem with rfl | hmem
        · exact Or.inr (List.mem_cons_self _ _)
        · exact Or.inr (List.mem_cons_of_mem _ hmem)
      · exact le_trans (le_of_lt hgt) hle
      · intro x hx
        rcases List.mem_cons.mp hx with rfl | hx
        · exact hle
        · exact hmax x hx
    · obtain ⟨sp, hfold, hmem, hle, hmax⟩ := ih s0
      refine ⟨sp, ?_, ?_, hle, ?_⟩
      · simpa [List.foldl_cons, bestMatchStep_some, hgt] using hfold
      · rcases hmem with rfl | hmem
        · exact Or.inl rfl
        · exact Or.inr (List.mem_cons_of_mem _ hmem)
      · intro x hx
        rcases List.mem_cons.mp hx with rfl | hx
        · exact le_trans (not_lt.mp hgt) hle
        · exact hmax x hx

lemma bestMatchFold_max (chars : List String) (speakers : List Speaker)
    (hne : speakers ≠ []) :
    ∃ sp ∈ speakers,
      speakers.foldl (bestMatchStep chars) none = some (sp, jaccardTo chars sp) ∧
      ∀ x ∈ speakers, jaccardTo chars x ≤ jaccardTo chars sp := by
  cases speakers with
  | nil => exact absurd rfl hne
  | cons h t =>
    obtain ⟨sp, hfold, hmem, hle0, hmax⟩ := bestMatchFold_spec chars t h
    refine ⟨sp, ?_, ?_, ?_⟩
    · rcases hmem with rfl | hmem
      · exact List.mem_cons_self _ _
      · exact List.mem_cons_of_mem _ hmem
    · simpa [List.foldl_cons] using hfold
    · intro x hx
      rcases List.mem_cons.mp hx with rfl | hx
      · exact hle0
      · exact hmax x hx

lemma detectSpeaker_eq (cfg : ConversationSystemConfig) (session : Session)
    (content : String) (now : Int) (sp : Speaker)
    (hfold : session.speakers.foldl
      (bestMatchStep (analyzeMessageCharacteristics content)) none =
        some (sp, simTo content sp))
    (hne : session.speakers ≠ []) :
    detectSpeaker cfg (some session) content now =
      if cfg.speakerDetection.similarityThreshold ≤ simTo content sp then
        { speakerId := sp.speakerId, confidence := simTo content sp,
          characteristics := analyzeMessageCharacteristics content, isNewSpeaker := false }
      else detectSpeakerFallback session (analyzeMessageCharacteristics content) now := by
  have hempty : session.speakers.isEmpty = false := by
    cases hs : session.speakers with
    | nil => exact absurd hs hne
    | cons a l => simp [hs]
  unfold detectSpeaker
  simp only [hempty, Bool.false_eq_true, if_false, hfold]

/-- C1: For every added message in a session that already has at least one
speaker, speaker attribution follows the priority order of `detectSpeaker`:
(1) if the maximum Jaccard similarity between the message's feature set and
the accumulated feature set of some existing speaker meets or exceeds the
configured threshold, attribute to a maximising speaker; (2) otherwise, if
the immediately preceding message is less than 30 seconds old, attribute to
that message's speaker with confidence 0.8; (3) otherwise create a new
speaker `speaker_<n+1>` with confidence 1.0. -/
theorem detectSpeaker_priority (cfg : ConversationSystemConfig) (session : Session)
    (content : String) (now : Int) (hs : session.speakers ≠ []) :
    ((∃ sp ∈ session.speakers,
        cfg.speakerDetection.similarityThreshold ≤ simTo content sp) →
      ∃ sp ∈ session.speakers,
        (detectSpeaker cfg (some session) content now).speakerId = sp.speakerId ∧
        (detectSpeaker cfg (some session) content now).confidence = simTo content sp ∧
        (detectSpeaker cfg (some session) content now).isNewSpeaker = false ∧
        cfg.speakerDetection.similarityThreshold ≤ simTo content sp ∧
        ∀ x ∈ session.speakers, simTo content x ≤ simTo content sp) ∧
    ((∀ sp ∈ session.speakers,
        simTo content sp < cfg.speakerDetection.similarityThreshold) →
      (∀ lastMessage, session.messages.getLast? = some lastMessage →
        (now - lastMessage.timestamp < 30000 →
          (detectSpeaker cfg (some session) content now).speakerId =
              lastMessage.speakerId ∧
          (detectSpeaker cfg (some session) content now).confidence = mkRat 8 10 ∧
          (detectSpeaker cfg (some session) content now).isNewSpeaker = false) ∧
        (30000 ≤ now - lastMessage.timestamp →
          (detectSpeaker cfg (some session) content now).speakerId =
              "speaker_" ++ toString (session.speakers.length + 1) ∧
          (detectSpeaker cfg (some session) content now).confidence = 1 ∧
          (detectSpeaker cfg (some session) content now).isNewSpeaker = true)) ∧
      (session.messages.getLast? = none →
        (detectSpeaker cfg (some session) content now).speakerId =
            "speaker_" ++ toString (session.speakers.length + 1) ∧
        (detectSpeaker cfg (some session) content now).confidence = 1 ∧
        (detectSpeaker cfg (some session) content now).isNewSpeaker = true)) := by
  obtain ⟨sp, hmem, hfold, hmax⟩ :=
    bestMatchFold_max (analyzeMessageCharacteristics content) session.speakers hs
  have hd := detectSpeaker_eq cfg session content now sp hfold hs
  constructor
  · rintro ⟨sp', hmem', hth'⟩
    have hth : cfg.speakerDetection.similarityThreshold ≤ simTo content sp :=
      le_trans hth' (hmax sp' hmem')
    rw [hd, if_pos hth]
    exact ⟨sp, hmem, rfl, rfl, rfl, hth, hmax⟩
  · intro hall
    have hth : ¬ cfg.speakerDetection.similarityThreshold ≤ simTo content sp :=
      not_le.mpr (hall sp hmem)
    rw [hd, if_neg hth]
    constructor
    · intro lastMessage hlast
      constructor
      · intro hrecent
        simp [detectSpeakerFallback, hlast, hrecent]
      · intro hold
        have : ¬ now - lastMessage.timestamp < 30000 := not_lt.mpr hold
        simp [detectSpeakerFallback, hlast, this, newSpeakerResult]
    · intro hnone
      simp [detectSpeakerFallback, hnone, newSpeakerResult]

/-- C1 witness: with one existing speaker whose tag set matches the new
message exactly (similarity 1 ≥ 0.3), attribution selects that speaker. -/
theorem detectSpeaker_priority_witness :
    (detectSpeaker DEFAULT_CONFIG (some w1session) "hi" 0).speakerId = "speaker_1" := by
  obtain ⟨sp, hmem, hid, -⟩ :=
    (detectSpeaker_priority DEFAULT_CONFIG w1session "hi" 0 (by decide)).1
      ⟨w1speaker, by decide, by decide⟩
  have hsp : sp = w1speaker := by
    simpa [w1session] using hmem
  rw [hid, hsp]
  rfl

/-! ### Grouping and sorting lemmas -/

lemma groupStep_join (cfg : ConversationSystemConfig) (st : GroupingState) (m : Message) :
    (groupStep cfg st m).groups.flatten ++ (groupStep cfg st m).currentGroup =
      st.groups.flatten ++ st.currentGroup ++ [m] := by
  unfold groupStep
  dsimp only
  split
  · split
    · simp
    · rename_i hlen
      have hnil : st.currentGroup = [] := by
        simpa using hlen
      simp [hnil]
  · simp

lemma groupFold_join (cfg : ConversationSystemConfig) :
    ∀ (msgs : List Message) (st : GroupingState),
      (msgs.foldl (groupStep cfg) st).groups.flatten ++
        (msgs.foldl (groupStep cfg) st).currentGroup =
      st.groups.flatten ++ st.currentGroup ++ msgs := by
  intro msgs
  induction msgs with
  | nil => intro st; simp
  | cons m rest ih =>
    intro st
    rw [List.foldl_cons, ih (groupStep cfg st m), groupStep_join]
    simp

lemma groupedRaw_join (cfg : ConversationSystemConfig) (msgs : List Message) :
    (groupedRaw cfg msgs).flatten = msgs := by
  unfold groupedRaw
  have h := groupFold_join cfg msgs ⟨[], [], none, none⟩
  dsimp only
  split
  · simpa using h
  · rename_i hlen
    have hnil : (msgs.foldl (groupStep cfg) ⟨[], [], none, none⟩).currentGroup = [] := by
      simpa using hlen
    rw [hnil] at h
    simpa using h

lemma mem_of_mem_groupMessages (cfg : ConversationSystemConfig) (msgs : List Message)
    (g : List Message) (m : Message)
    (hg : g ∈ groupMessagesForCompression cfg msgs) (hm : m ∈ g) : m ∈ msgs := by
  have hg' : g ∈ groupedRaw cfg msgs := List.mem_of_mem_filter hg
  have : m ∈ (groupedRaw cfg msgs).flatten := List.mem_flatten.mpr ⟨g, hg', hm⟩
  rwa [groupedRaw_join] at this

lemma insertSortedBy_perm {α : Type} (lt : α → α → Bool) (x : α) (l : List α) :
    List.Perm (insertSortedBy lt x l) (x :: l) := by
  induction l with
  | nil => simp [insertSortedBy]
  | cons y ys ih =>
    unfold insertSortedBy
    split
    · exact List.Perm.refl _
    · exact ((ih.cons y).trans (List.Perm.swap x y ys))

lemma stableSortBy_perm {α : Type} (lt : α → α → Bool) (l : List α) :
    List.Perm (stableSortBy lt l) l := by
  suffices h : ∀ (l : List α) (acc : List α),
      List.Perm (l.foldl (fun a x => insertSortedBy lt x a) acc) (acc ++ l) by
    simpa using h l []
  intro l
  induction l with
  | nil => intro acc; simp
  | cons x xs ih =>
    intro acc
    rw [List.foldl_cons]
    refine (ih (insertSortedBy lt x acc)).trans ?_
    refine (List.Perm.append_right xs (insertSortedBy_perm lt x acc)).trans ?_
    exact (List.perm_middle).symm

lemma mem_stableSortBy {α : Type} (lt : α → α → Bool) (l : List α) (x : α) :
    x ∈ stableSortBy lt l ↔ x ∈ l :=
  (stableSortBy_perm lt l).mem_iff

/-- The messages considered by a compression pass: not yet covered, sorted by
timestamp. -/
lemma compressContext_cases (cfg : ConversationSystemConfig) (session : Session) :
    compressContext cfg session = session ∨
    (compressContext cfg session).compressedHistory =
      session.compressedHistory ++
        (groupMessagesForCompression cfg
          (stableSortBy (fun a b => a.timestamp < b.timestamp)
            (session.messages.filter (fun msg => ¬ isCovered session msg.id)))).map
          (createCompressedMessage cfg) := by
  unfold compressContext
  dsimp only
  split
  · exact Or.inl rfl
  · exact Or.inr rfl

/-- C2 counterexample: on a session whose messages follow the speaker pattern
A A B B B A A one second apart, the first compression pass folds only the
B-run; an immediate second pass with no new messages then folds the four
A-messages — which had been discarded as two undersized runs but are adjacent
in the second pass's uncovered list — into a further group. Compression is
therefore not idempotent. -/
theorem compressContext_not_idempotent :
    (compressContext DEFAULT_CONFIG c2session).compressedHistory.length = 1 ∧
    (compressContext DEFAULT_CONFIG
      (compressContext DEFAULT_CONFIG c2session)).compressedHistory.length = 2 := by
  decide

/-- C2 (amended): a compression pass never re-folds a message: every group it
adds consists solely of message ids not covered by any existing group of the
session it runs on. (A second pass may still add new groups built from
messages the first pass left uncovered.) -/
theorem compressContext_covers_only_uncovered (cfg : ConversationSystemConfig)
    (session : Session) :
    ∀ g ∈ (compressContext cfg session).compressedHistory.drop
        session.compressedHistory.length,
      ∀ mid ∈ g.originalMessageIds, isCovered session mid = false := by
  intro g hg mid hmid
  rcases compressContext_cases cfg session with heq | heq
  · rw [heq, List.drop_length] at hg
    exact absurd hg (List.not_mem_nil g)
  · rw [heq, List.drop_left] at hg
    obtain ⟨group, hgroup, rfl⟩ := List.mem_map.mp hg
    have hsub : ∀ m ∈ group,
        m ∈ session.messages.filter (fun msg => ¬ isCovered session msg.id) := by
      intro m hm
      have := mem_of_mem_groupMessages cfg _ group m hgroup hm
      rwa [mem_stableSortBy] at this
    cases group with
    | nil => simp [createCompressedMessage] at hmid
    | cons first rest =>
      have hids : (createCompressedMessage cfg (first :: rest)).originalMessageIds =
          (first :: rest).map (fun m => m.id) := rfl
      rw [hids] at hmid
      obtain ⟨m, hm, rfl⟩ := List.mem_map.mp hmid
      have := hsub m hm
      have hp := List.of_mem_filter this
      simpa using hp

/-- C2 witness for the amended theorem: the group added by the second pass on
the concrete session consists of ids uncovered after the first pass. -/
theorem compressContext_covers_only_uncovered_witness :
    isCovered (compressContext DEFAULT_CONFIG c2session) "m1" = false := by
  have h := compressContext_covers_only_uncovered DEFAULT_CONFIG
    (compressContext DEFAULT_CONFIG c2session)
    ((compressContext DEFAULT_CONFIG
        (compressContext DEFAULT_CONFIG c2session)).compressedHistory.getLastD
      (createCompressedMessage DEFAULT_CONFIG []))
    (by decide) "m1" (by decide)
  exact h

/-! ### Key-message selection lemmas -/

lemma gatedFold_take_eq {α : Type} (cap : Nat) (c : List α → α → Prop)
    [inst : ∀ a x, Decidable (c a x)] :
    ∀ (l : List α) (g u : List α), g.take cap = u.take cap → (g.length < cap → g = u) →
      ((l.foldl (fun a x => if c a x ∧ a.length < cap then a ++ [x] else a) g).take cap =
        (l.foldl (fun a x => if c a x then a ++ [x] else a) u).take cap) ∧
      ((l.foldl (fun a x => if c a x ∧ a.length < cap then a ++ [x] else a) g).length < cap →
        l.foldl (fun a x => if c a x ∧ a.length < cap then a ++ [x] else a) g =
          l.foldl (fun a x => if c a x then a ++ [x] else a) u) := by
  intro l
  induction l with
  | nil => intro g u h1 h2; exact ⟨h1, h2⟩
  | cons x xs ih =>
    intro g u h1 h2
    rw [List.foldl_cons, List.foldl_cons]
    by_cases hlen : g.length < cap
    · have hgu : g = u := h2 hlen
      subst hgu
      by_cases hc : c g x
      · rw [if_pos ⟨hc, hlen⟩, if_pos hc]
        exact ih _ _ rfl (fun _ => rfl)
      · rw [if_neg (fun h => hc h.1), if_neg hc]
        exact ih _ _ rfl (fun _ => rfl)
    · rw [if_neg (fun h => hlen h.2)]
      have hcapg : cap ≤ g.length := Nat.le_of_not_lt hlen
      have hcapu : cap ≤ u.length := by
        have hlt : (g.take cap).length = (u.take cap).length := by rw [h1]
        simp only [List.length_take] at hlt
        omega
      have h1' : g.take cap = (if c u x then u ++ [x] else u).take cap := by
        split
        · rw [List.take_append_of_le_length hcapu]; exact h1
        · exact h1
      exact ih _ _ h1' (fun hl => absurd hl hlen)

lemma guardedFold_filter {α : Type} [DecidableEq α] (Q : α → Bool) :
    ∀ (l acc : List α),
      l.foldl (fun a x => if Q x = true ∧ x ∉ a then a ++ [x] else a) acc =
        (l.filter Q).foldl (fun a x => if x ∉ a then a ++ [x] else a) acc := by
  intro l
  induction l with
  | nil => intro acc; rfl
  | cons x xs ih =>
    intro acc
    rw [List.foldl_cons]
    by_cases hq : Q x = true
    · rw [List.filter_cons_of_pos hq, List.foldl_cons]
      by_cases hm : x ∈ acc
      · rw [if_neg (fun h => h.2 hm), if_neg (fun h => h hm)]
        exact ih acc
      · rw [if_pos ⟨hq, hm⟩, if_pos hm]
        exact ih _
    · rw [List.filter_cons_of_neg (by simpa using hq), if_neg (fun h => hq h.1)]
      exact ih acc

lemma questionFold_filter :
    ∀ (l acc : List Message),
      l.foldl (fun a x => if x.isQuestion = true ∧ x ∉ a then a ++ [x] else a) acc =
        (l.filter (fun m => m.isQuestion)).foldl
          (fun a x => if x ∉ a then a ++ [x] else a) acc :=
  guardedFold_filter (fun (m : Message) => m.isQuestion)

lemma pushUnique_spec {α : Type} [DecidableEq α] :
    ∀ (l acc : List α),
      (∀ x, x ∈ pushUnique acc l ↔ x ∈ acc ∨ x ∈ l) ∧
      (acc.Nodup → (pushUnique acc l).Nodup) ∧
      (∃ t, pushUnique acc l = acc ++ t) := by
  intro l
  induction l with
  | nil =>
    intro acc
    exact ⟨fun x => by simp [pushUnique], fun h => h, ⟨[], by simp [pushUnique]⟩⟩
  | cons y ys ih =>
    intro acc
    have hstep : pushUnique acc (y :: ys) =
        pushUnique (if y ∉ acc then acc ++ [y] else acc) ys := by
      simp only [pushUnique, List.foldl_cons]
    by_cases hy : y ∈ acc
    · rw [hstep, if_neg (fun h => h hy)]
      obtain ⟨hmem, hnd, hext⟩ := ih acc
      refine ⟨?_, hnd, hext⟩
      intro x
      rw [hmem x]
      constructor
      · rintro (h | h)
        · exact Or.inl h
        · exact Or.inr (List.mem_cons_of_mem _ h)
      · rintro (h | h)
        · exact Or.inl h
        · rcases List.mem_cons.mp h with rfl | h
          · exact Or.inl hy
          · exact Or.inr h
    · rw [hstep, if_pos hy]
      obtain ⟨hmem, hnd, hext⟩ := ih (acc ++ [y])
      refine ⟨?_, ?_, ?_⟩
      · intro x
        rw [hmem x]
        simp only [List.mem_append, List.mem_singleton, List.mem_cons]
        tauto
      · intro h
        exact hnd (by simp [List.nodup_append, h, hy])
      · obtain ⟨t, ht⟩ := hext
        refine ⟨y :: t, ?_⟩
        rw [ht, List.append_assoc]
        rfl

/-- The code's gated selection equals the cap-length prefix of the ungated
spec-side list. -/
lemma selectKey_eq_specKeySelection (messages : List Message) (maxCount : Nat) :
    selectKeyMessagesForCompression messages maxCount =
      (specKeySelection messages).take maxCount := by
  unfold selectKeyMessagesForCompression specKeySelection
  dsimp only
  rw [pushUnique, List.foldl_append]
  set acc0 : List Message :=
    (if messages.length > 1 then
      (match messages.head? with | some m => [m] | none => []) ++
        (match messages.getLast? with | some m => [m] | none => [])
     else match messages.head? with | some m => [m] | none => []) with hacc0
  have step1 := gatedFold_take_eq maxCount
    (fun (a : List Message) (x : Message) => x.isQuestion = true ∧ x ∉ a)
    messages acc0 acc0 rfl (fun _ => rfl)
  have step2 := gatedFold_take_eq maxCount
    (fun (a : List Message) (x : Message) => x ∉ a)
    (stableSortBy (fun a b => b.wordCount < a.wordCount) messages)
    _ _ step1.1 step1.2
  refine step2.1.trans ?_
  rw [questionFold_filter]

lemma compressedCount_pos (cfg : ConversationSystemConfig) (n : Nat) :
    1 ≤ compressedCount cfg n :=
  le_max_left 1 _

lemma compressedCount_le (n : Nat) : compressedCount DEFAULT_CONFIG n ≤ max 1 n := by
  have hval : compressedCount DEFAULT_CONFIG n =
      max 1 (Int.toNat (Rat.floor (Rat.divInt ((n : Int) * 3) 10))) := rfl
  rw [hval]
  have heq : Rat.floor (Rat.divInt ((n : Int) * 3) 10) =
      ⌊Rat.divInt ((n : Int) * 3) 10⌋ := rfl
  have hle : (Rat.divInt ((n : Int) * 3) 10 : ℚ) ≤ ((n : Nat) : ℚ) := by
    rw [Rat.divInt_eq_div]
    rw [div_le_iff₀ (by norm_num : (0:ℚ) < ((10 : Int) : ℚ))]
    push_cast
    have h0 : (0:ℚ) ≤ (n : ℚ) := Nat.cast_nonneg n
    linarith
  have hfloor : Rat.floor (Rat.divInt ((n : Int) * 3) 10) ≤ (n : Int) := by
    rw [heq]
    calc ⌊Rat.divInt ((n : Int) * 3) 10⌋ ≤ ⌊((n : Nat) : ℚ)⌋ := Int.floor_mono hle
      _ = (n : Int) := Int.floor_natCast n
  omega

/-- C4 counterexample: for the smallest compressible group (3 messages) the
default cap `max(1, floor(3 × 0.3)) = 1`, so the selection is the first
message alone — the last message of the group is not selected, contradicting
"the selection always contains both the first and the last message". -/
theorem selectKey_omits_last_in_small_groups :
    compressedCount DEFAULT_CONFIG 3 = 1 ∧
    selectKeyMessagesForCompression c4group (compressedCount DEFAULT_CONFIG 3) =
      [fixtureMsg 1 "a" 0 false 1] ∧
    ¬ (fixtureMsg 3 "a" 2000 false 9 ∈
        selectKeyMessagesForCompression c4group (compressedCount DEFAULT_CONFIG 3)) := by
  decide

/-- C4 (amended): for a duplicate-free group of at least 3 messages, the
selection has exactly `cap = max(1, floor(n × ratio))` messages and equals
the cap-length prefix of: first and last message, then question messages,
then remaining messages by descending word count (first occurrences kept).
It always contains the first message; it contains the last message whenever
`cap ≥ 2` (at the default ratio this fails for groups of size 3–6). -/
theorem selectKeyMessages_cap (messages : List Message) (h3 : 3 ≤ messages.length)
    (hnd : messages.Nodup) :
    (selectKeyMessagesForCompression messages
        (compressedCount DEFAULT_CONFIG messages.length)).length =
      compressedCount DEFAULT_CONFIG messages.length ∧
    selectKeyMessagesForCompression messages
        (compressedCount DEFAULT_CONFIG messages.length) =
      (specKeySelection messages).take (compressedCount DEFAULT_CONFIG messages.length) ∧
    (∀ first, messages.head? = some first →
      first ∈ selectKeyMessagesForCompression messages
        (compressedCount DEFAULT_CONFIG messages.length)) ∧
    (2 ≤ compressedCount DEFAULT_CONFIG messages.length →
      ∀ last, messages.getLast? = some last →
        last ∈ selectKeyMessagesForCompression messages
          (compressedCount DEFAULT_CONFIG messages.length)) := by
  have hrefine := selectKey_eq_specKeySelection messages
    (compressedCount DEFAULT_CONFIG messages.length)
  have hcaple : compressedCount DEFAULT_CONFIG messages.length ≤ messages.length := by
    have := compressedCount_le messages.length
    omega
  -- every message occurs in the spec-side list
  have hmemspec : ∀ m ∈ messages, m ∈ specKeySelection messages := by
    intro m hm
    unfold specKeySelection
    dsimp only
    refine ((pushUnique_spec _ _).1 m).mpr (Or.inr ?_)
    refine List.mem_append_right _ ?_
    rw [mem_stableSortBy]
    exact hm
  -- the spec-side list is at least as long as the group
  have hlenspec : messages.length ≤ (specKeySelection messages).length := by
    have hsub : messages.toFinset ⊆ (specKeySelection messages).toFinset := by
      intro x hx
      rw [List.mem_toFinset] at hx ⊢
      exact hmemspec x hx
    calc messages.length = messages.toFinset.card :=
          (List.toFinset_card_of_nodup hnd).symm
      _ ≤ (specKeySelection messages).toFinset.card := Finset.card_le_card hsub
      _ ≤ (specKeySelection messages).length := List.toFinset_card_le _
  -- the head and the mandatory shape of the spec-side list
  obtain ⟨first, hfirst⟩ : ∃ first, messages.head? = some first := by
    cases messages with
    | nil => simp at h3
    | cons a l => exact ⟨a, rfl⟩
  obtain ⟨last, hlast⟩ : ∃ last, messages.getLast? = some last := by
    cases messages with
    | nil => simp at h3
    | cons a l => exact ⟨(a :: l).getLast (List.cons_ne_nil a l), List.getLast?_eq_getLast _ _⟩
  have hgt1 : messages.length > 1 := by omega
  have hmand : ∃ t, specKeySelection messages = first :: last :: t := by
    unfold specKeySelection
    dsimp only
    rw [hfirst, hlast, if_pos hgt1]
    obtain ⟨t, ht⟩ := (pushUnique_spec
      ((messages.filter (fun m => m.isQuestion)) ++
        stableSortBy (fun a b => b.wordCount < a.wordCount) messages)
      ([first] ++ [last])).2.2
    exact ⟨t, ht⟩
  refine ⟨?_, hrefine, ?_, ?_⟩
  · rw [hrefine, List.length_take]
    omega
  · intro first' hfirst'
    rw [hfirst] at hfirst'
    obtain rfl : first = first' := by injection hfirst'
    rw [hrefine]
    obtain ⟨t, ht⟩ := hmand
    rw [ht]
    obtain ⟨k, hk⟩ : ∃ k, compressedCount DEFAULT_CONFIG messages.length = k + 1 := by
      have := compressedCount_pos DEFAULT_CONFIG messages.length
      exact ⟨compressedCount DEFAULT_CONFIG messages.length - 1, by omega⟩
    rw [hk, List.take_succ_cons]
    exact List.mem_cons_self _ _
  · intro h2 last' hlast'
    rw [hlast] at hlast'
    obtain rfl : last = last' := by injection hlast'
    rw [hrefine]
    obtain ⟨t, ht⟩ := hmand
    rw [ht]
    obtain ⟨k, hk⟩ : ∃ k, compressedCount DEFAULT_CONFIG messages.length = k + 2 :=
      ⟨compressedCount DEFAULT_CONFIG messages.length - 2, by omega⟩
    rw [hk, List.take_succ_cons, List.take_succ_cons]
    exact List.mem_cons_of_mem _ (List.mem_cons_self _ _)

/-- C4 witness: on a concrete duplicate-free 7-message group (cap 2) the
last message is selected. -/
theorem selectKeyMessages_cap_witness :
    fixtureMsg 7 "a" 6000 false 7 ∈
      selectKeyMessagesForCompression c4big (compressedCount DEFAULT_CONFIG c4big.length) := by
  exact (selectKeyMessages_cap c4big (by decide) (by decide)).2.2.2
    (by decide) (fixtureMsg 7 "a" 6000 false 7) (by decide)

/-- C5 counterexample: `addMessage` itself performs no length check — called
with empty content on a session with one speaker, it appends a message and
updates the speaker's count. -/
theorem addMessage_accepts_short_content :
    (addMessage DEFAULT_CONFIG c5state "" false 0 "mA" "sN").2.content = "" ∧
    (lookupSession (addMessage DEFAULT_CONFIG c5state "" false 0 "mA" "sN").1.storage
        "s1").map (fun s => s.messages.length) = some 1 ∧
    (lookupSession (addMessage DEFAULT_CONFIG c5state "" false 0 "mA" "sN").1.storage
        "s1").map (fun s => s.speakers.map (fun sp => sp.messageCount)) = some [2] := by
  decide

/-- C5 (amended): the length guard lives in the transcript-processing caller
`processTranscript`, which silently returns, leaving the manager state
untouched and never invoking `addMessage`, whenever the text trims to empty
or is shorter than 3 characters. -/
theorem processTranscript_drops_short (cfg : ConversationSystemConfig)
    (st : ManagerState) (text : String) (now : Int) (msgId newSessionId : String)
    (h : trimChars text.data = [] ∨ text.length < 3) :
    processTranscript cfg st text now msgId newSessionId = st := by
  unfold processTranscript
  rw [if_pos h]

/-- C5 witness: a two-character fragment is dropped. -/
theorem processTranscript_drops_short_witness :
    processTranscript DEFAULT_CONFIG c5state "hi" 0 "mA" "sN" = c5state :=
  processTranscript_drops_short DEFAULT_CONFIG c5state "hi" 0 "mA" "sN"
    (Or.inr (by decide))

/-- C7 counterexample: with no message in the elapsed window, no summary is
appended but the summary clock is reset to the check time — the claim's
"the clock is not reset by that check" fails. -/
theorem summaryCheck_resets_clock_on_empty_window :
    (checkForSummaryGeneration DEFAULT_CONFIG w1session (some 0) 60001).1 = w1session ∧
    (checkForSummaryGeneration DEFAULT_CONFIG w1session (some 0) 60001).2 = some 60001 ∧
    ¬ (checkForSummaryGeneration DEFAULT_CONFIG w1session (some 0) 60001).2 = some 0 := by
  decide

/-- C7 (amended): when no message timestamp falls inside
`[lastSummaryTime, now]`, the check appends no summary and leaves the session
untouched; the clock is reset to `now` exactly when the configured interval
has elapsed (reset-on-every-check), and keeps its old value otherwise. -/
theorem summaryCheck_empty_window (cfg : ConversationSystemConfig) (session : Session)
    (t now : Int)
    (hempty : ∀ m ∈ session.messages, ¬ (t ≤ m.timestamp ∧ m.timestamp ≤ now)) :
    (checkForSummaryGeneration cfg session (some t) now).1 = session ∧
    (checkForSummaryGeneration cfg session (some t) now).2 =
      (if Rat.divInt (now - t) (60 * 1000) ≥ cfg.summarization.intervalMinutes
       then some now else some t) := by
  have hnil : session.messages.filter
      (fun msg => (some t).getD session.startTime ≤ msg.timestamp ∧
        msg.timestamp ≤ now) = [] := by
    rw [List.filter_eq_nil_iff]
    intro a ha
    simpa using hempty a ha
  unfold checkForSummaryGeneration
  dsimp only
  split
  · refine ⟨?_, rfl⟩
    unfold generateTimedSummary
    dsimp only
    rw [hnil]
    simp
  · exact ⟨rfl, rfl⟩

/-- C7 witness: concrete empty-window check with the interval elapsed. -/
theorem summaryCheck_empty_window_witness :
    (checkForSummaryGeneration DEFAULT_CONFIG w1session (some 0) 60001).1 = w1session :=
  (summaryCheck_empty_window DEFAULT_CONFIG w1session 0 60001 (by decide)).1

/-! ### Session-map lemmas -/

lemma findUpdate_eq (sessions : List (String × Session)) (sid : String)
    (f : Session → Session) :
    (updateFirstBy (fun kv => kv.1 = sid) (fun kv => (kv.1, f kv.2)) sessions).find?
        (fun kv => kv.1 = sid) =
      (sessions.find? (fun kv => kv.1 = sid)).map (fun kv => (kv.1, f kv.2)) := by
  induction sessions with
  | nil => rfl
  | cons kv rest ih =>
    by_cases h : kv.1 = sid
    · simp [updateFirstBy, List.find?_cons, h]
    · simp [updateFirstBy, List.find?_cons, h, ih]

lemma findUpdate_ne (sessions : List (String × Session)) (sid sid' : String)
    (f : Session → Session) (h : sid' ≠ sid) :
    (updateFirstBy (fun kv => kv.1 = sid) (fun kv => (kv.1, f kv.2)) sessions).find?
        (fun kv => kv.1 = sid') =
      sessions.find? (fun kv => kv.1 = sid') := by
  induction sessions with
  | nil => rfl
  | cons kv rest ih =>
    by_cases hk : kv.1 = sid
    · have e1 : updateFirstBy (fun kv => kv.1 = sid) (fun kv => (kv.1, f kv.2))
          (kv :: rest) = (kv.1, f kv.2) :: rest := by
        simp [updateFirstBy, hk]
      have hne : ¬ kv.1 = sid' := fun hc => h ((hc ▸ hk : sid' = sid))
      rw [e1, List.find?_cons_of_neg _ (by simpa using hne),
        List.find?_cons_of_neg _ (by simpa using hne)]
    · have e1 : updateFirstBy (fun kv => kv.1 = sid) (fun kv => (kv.1, f kv.2))
          (kv :: rest) = kv :: updateFirstBy (fun kv => kv.1 = sid)
            (fun kv => (kv.1, f kv.2)) rest := by
        simp [updateFirstBy, hk]
      rw [e1]
      by_cases hk' : kv.1 = sid'
      · rw [List.find?_cons_of_pos _ (by simpa using hk'),
          List.find?_cons_of_pos _ (by simpa using hk')]
      · rw [List.find?_cons_of_neg _ (by simpa using hk'),
          List.find?_cons_of_neg _ (by simpa using hk')]
        exact ih

lemma lookupSession_update_self (storage : Storage) (sid : String) (f : Session → Session) :
    lookupSession (updateSessionBy storage sid f) sid =
      (lookupSession storage sid).map f := by
  unfold lookupSession updateSessionBy
  dsimp only
  rw [findUpdate_eq]
  cases storage.sessions.find? (fun kv => kv.1 = sid) <;> rfl

lemma lookupSession_update_ne (storage : Storage) (sid sid' : String)
    (f : Session → Session) (h : sid' ≠ sid) :
    lookupSession (updateSessionBy storage sid f) sid' = lookupSession storage sid' := by
  unfold lookupSession updateSessionBy
  dsimp only
  rw [findUpdate_ne _ _ _ _ h]

lemma lookupSession_setCurrent (storage : Storage) (x : Option String) (sid : String) :
    lookupSession { storage with currentSessionId := x } sid =
      lookupSession storage sid := rfl

lemma updateCurrentSession_none (storage : Storage) (f : Session → Session)
    (h : storage.currentSessionId = none) : updateCurrentSession storage f = storage := by
  unfold updateCurrentSession
  rw [h]

lemma updateCurrentSession_lookup_none (storage : Storage) (f : Session → Session)
    (cid : String) (h1 : storage.currentSessionId = some cid)
    (h2 : lookupSession storage cid = none) : updateCurrentSession storage f = storage := by
  unfold updateCurrentSession
  rw [h1]
  show (match lookupSession storage cid with
    | none => storage
    | some _ => updateSessionBy storage cid f) = storage
  rw [h2]

lemma updateCurrentSession_lookup_some (storage : Storage) (f : Session → Session)
    (cid : String) (s : Session) (h1 : storage.currentSessionId = some cid)
    (h2 : lookupSession storage cid = some s) :
    updateCurrentSession storage f = updateSessionBy storage cid f := by
  unfold updateCurrentSession
  rw [h1]
  show (match lookupSession storage cid with
    | none => storage
    | some _ => updateSessionBy storage cid f) = updateSessionBy storage cid f
  rw [h2]

lemma lookupSession_updateCurrent (storage : Storage) (f : Session → Session)
    (sid : String) (hne : storage.currentSessionId ≠ some sid) :
    lookupSession (updateCurrentSession storage f) sid = lookupSession storage sid := by
  cases hc : storage.currentSessionId with
  | none => rw [updateCurrentSession_none storage f hc]
  | some cid =>
    cases hl : lookupSession storage cid with
    | none => rw [updateCurrentSession_lookup_none storage f cid hc hl]
    | some s =>
      rw [updateCurrentSession_lookup_some storage f cid s hc hl]
      have hsc : sid ≠ cid := fun h => hne (by rw [h, hc])
      exact lookupSession_update_ne storage cid sid f hsc

/-- C8: `continueSession` on an absent id returns `false` and leaves the whole
manager state (current pointer, all sessions, all their fields) untouched; on
a present id it returns `true`, deactivates the previous current session
(setting its `endTime`), reactivates the target clearing its `endTime`, sets
it current, and touches no other session. -/
theorem continueSession_spec (st : ManagerState) (sessionId : String) (now : Int) :
    (lookupSession st.storage sessionId = none →
      continueSession st sessionId now = (st, false)) ∧
    (∀ target, lookupSession st.storage sessionId = some target →
      (continueSession st sessionId now).2 = true ∧
      (continueSession st sessionId now).1.storage.currentSessionId = some sessionId ∧
      lookupSession (continueSession st sessionId now).1.storage sessionId =
        some { target with isActive := true, endTime := none } ∧
      (∀ cid, st.storage.currentSessionId = some cid → cid ≠ sessionId →
        lookupSession (continueSession st sessionId now).1.storage cid =
          (lookupSession st.storage cid).map
            (fun s => { s with endTime := some now, isActive := false })) ∧
      (∀ oid, oid ≠ sessionId → st.storage.currentSessionId ≠ some oid →
        lookupSession (continueSession st sessionId now).1.storage oid =
          lookupSession st.storage oid)) := by
  constructor
  · intro h0
    unfold continueSession
    rw [h0]
  · intro target htgt
    unfold continueSession
    rw [htgt]
    dsimp only
    refine ⟨rfl, rfl, ?_, ?_, ?_⟩
    · rw [lookupSession_update_self]
      by_cases hcur : st.storage.currentSessionId = some sessionId
      · rw [lookupSession_setCurrent,
          updateCurrentSession_lookup_some st.storage _ sessionId target hcur htgt,
          lookupSession_update_self, htgt]
        rfl
      · rw [lookupSession_setCurrent, lookupSession_updateCurrent _ _ _ hcur, htgt]
        rfl
    · intro cid hc hne
      rw [lookupSession_update_ne _ _ _ _ hne, lookupSession_setCurrent]
      cases hl : lookupSession st.storage cid with
      | none => rw [updateCurrentSession_lookup_none st.storage _ cid hc hl, hl]; rfl
      | some c =>
        rw [updateCurrentSession_lookup_some st.storage _ cid c hc hl,
          lookupSession_update_self, hl]
    · intro oid hone hocur
      rw [lookupSession_update_ne _ _ _ _ hone, lookupSession_setCurrent]
      exact lookupSession_updateCurrent _ _ _ hocur

/-- C8 witness: an absent id fails without touching the state; a present id
is reactivated with its `endTime` cleared. -/
theorem continueSession_spec_witness :
    continueSession c5state "zz" 5 = (c5state, false) ∧
    lookupSession (continueSession c5state "s1" 5).1.storage "s1" =
      some { w1session with isActive := true, endTime := none } := by
  refine ⟨(continueSession_spec c5state "zz" 5).1 (by decide), ?_⟩
  exact ((continueSession_spec c5state "s1" 5).2 w1session (by decide)).2.2.1

/-! ### Shape lemmas: which fields each operation can touch -/

lemma compressContext_shape (cfg : ConversationSystemConfig) (session : Session) :
    ∃ ch, compressContext cfg session = { session with compressedHistory := ch } := by
  unfold compressContext
  dsimp only
  split
  · exact ⟨_, rfl⟩
  · exact ⟨_, rfl⟩

lemma checkForContextCompression_shape (cfg : ConversationSystemConfig)
    (session : Session) (now : Int) :
    ∃ ch, checkForContextCompression cfg session now =
      { session with compressedHistory := ch } := by
  unfold checkForContextCompression
  dsimp only
  split
  · exact ⟨_, rfl⟩
  · split
    · exact compressContext_shape cfg session
    · exact ⟨_, rfl⟩

lemma generateTimedSummary_shape (cfg : ConversationSystemConfig) (session : Session)
    (lst : Option Int) (now : Int) :
    ∃ su, generateTimedSummary cfg session lst now = { session with summaries := su } := by
  unfold generateTimedSummary
  dsimp only
  split
  · exact ⟨_, rfl⟩
  · exact ⟨_, rfl⟩

lemma checkForSummaryGeneration_shape (cfg : ConversationSystemConfig) (session : Session)
    (lst : Option Int) (now : Int) :
    ∃ su, (checkForSummaryGeneration cfg session lst now).1 =
      { session with summaries := su } := by
  unfold checkForSummaryGeneration
  cases lst with
  | none => exact ⟨_, rfl⟩
  | some t =>
    dsimp only
    split
    · exact generateTimedSummary_shape cfg session (some t) now
    · exact ⟨_, rfl⟩

/-! ### setSession and startNewSession lemmas -/

lemma find?_append_none {α : Type} (p : α → Bool) (l1 l2 : List α)
    (h : l1.find? p = none) : (l1 ++ l2).find? p = l2.find? p := by
  induction l1 with
  | nil => rfl
  | cons x xs ih =>
    rw [List.find?_cons] at h
    rcases hx : p x with _ | _
    · rw [hx] at h
      rw [List.cons_append, List.find?_cons, hx]
      exact ih h
    · rw [hx] at h
      exact absurd h (by simp)

lemma setSession_currentSessionId (storage : Storage) (sid : String) (s : Session) :
    (setSession storage sid s).currentSessionId = storage.currentSessionId := by
  unfold setSession
  split
  · rfl
  · rfl

lemma lookupSession_setSession_self (storage : Storage) (sid : String) (s : Session) :
    lookupSession (setSession storage sid s) sid = some s := by
  unfold setSession
  split
  · rename_i hany
    rw [lookupSession_update_self]
    cases hf : lookupSession storage sid with
    | none =>
      exfalso
      obtain ⟨kv, hkv, hp⟩ := List.any_eq_true.mp hany
      unfold lookupSession at hf
      have : storage.sessions.find? (fun kv => kv.1 = sid) = none := by
        cases hfind : storage.sessions.find? (fun kv => kv.1 = sid) with
        | none => rfl
        | some v => rw [hfind] at hf; exact absurd hf (by simp)
      rw [List.find?_eq_none] at this
      exact this kv hkv hp
    | some old => rfl
  · rename_i hany
    unfold lookupSession
    dsimp only
    have hnone : storage.sessions.find? (fun kv => kv.1 = sid) = none := by
      rw [List.find?_eq_none]
      intro kv hkv hp
      exact hany (List.any_eq_true.mpr ⟨kv, hkv, hp⟩)
    rw [find?_append_none _ _ _ hnone]
    simp [List.find?_cons]

lemma startNewSession_current (st : ManagerState) (title : Option String)
    (sessionId : String) (now : Int) :
    (startNewSession st title sessionId now).storage.currentSessionId = some sessionId := by
  unfold startNewSession
  dsimp only
  rw [setSession_currentSessionId]

lemma startNewSession_lookup (st : ManagerState) (title : Option String)
    (sessionId : String) (now : Int) :
    ∃ s, lookupSession (startNewSession st title sessionId now).storage sessionId =
        some s ∧ s.isActive = true ∧ s.messages = [] ∧ s.sessionId = sessionId ∧
        s.startTime = now := by
  unfold startNewSession
  dsimp only
  rw [lookupSession_setSession_self]
  exact ⟨_, rfl, rfl, rfl, rfl, rfl⟩

lemma addMessage_none_eq (cfg : ConversationSystemConfig) (st : ManagerState)
    (content : String) (isQuestion : Bool) (now : Int) (msgId newSessionId : String)
    (hnone : getCurrentSession st.storage = none) :
    addMessage cfg st content isQuestion now msgId newSessionId =
      addMessageCore cfg (startNewSession st none newSessionId now)
        content isQuestion now msgId := by
  unfold addMessage
  rw [hnone]

lemma addMessageCore_eq (cfg : ConversationSystemConfig) (st : ManagerState)
    (content : String) (isQuestion : Bool) (now : Int) (msgId : String)
    (sid : String) (session : Session)
    (hsid : st.storage.currentSessionId = some sid)
    (hlook : lookupSession st.storage sid = some session) :
    addMessageCore cfg st content isQuestion now msgId =
      addMessageToSession cfg st content isQuestion now msgId sid session := by
  unfold addMessageCore
  rw [hsid]
  show (match lookupSession st.storage sid with
    | none => (st, vacuousMessage)
    | some session => addMessageToSession cfg st content isQuestion now msgId sid session) =
      addMessageToSession cfg st content isQuestion now msgId sid session
  rw [hlook]

lemma addMessageToSession_spec (cfg : ConversationSystemConfig) (st : ManagerState)
    (content : String) (isQuestion : Bool) (now : Int) (msgId : String)
    (sid : String) (session : Session)
    (hlook : lookupSession st.storage sid = some session) :
    (addMessageToSession cfg st content isQuestion now msgId sid session).1.storage.currentSessionId =
      st.storage.currentSessionId ∧
    (addMessageToSession cfg st content isQuestion now msgId sid session).2.id = msgId ∧
    (addMessageToSession cfg st content isQuestion now msgId sid session).2.content = content ∧
    ∃ s', lookupSession
        (addMessageToSession cfg st content isQuestion now msgId sid session).1.storage sid =
        some s' ∧
      s'.isActive = session.isActive ∧
      s'.messages = session.messages ++
        [(addMessageToSession cfg st content isQuestion now msgId sid session).2] := by
  refine ⟨rfl, rfl, rfl, ?_⟩
  obtain ⟨su, hsu⟩ := checkForSummaryGeneration_shape cfg
    { ensureSpeakerExists session (detectSpeaker cfg (some session) content now).speakerId
        (detectSpeaker cfg (some session) content now) now with
      messages := (ensureSpeakerExists session
        (detectSpeaker cfg (some session) content now).speakerId
        (detectSpeaker cfg (some session) content now) now).messages ++
        [{ id := msgId, timestamp := now,
           speakerId := (detectSpeaker cfg (some session) content now).speakerId,
           content := content, isQuestion := isQuestion,
           wordCount := calculateWordCount content,
           keywords := extractKeywords content,
           sentimentScore := calculateSentimentScore content }] }
    st.lastSummaryTime now
  obtain ⟨ch, hch⟩ := checkForContextCompression_shape cfg
    (checkForSummaryGeneration cfg
      { ensureSpeakerExists session (detectSpeaker cfg (some session) content now).speakerId
          (detectSpeaker cfg (some session) content now) now with
        messages := (ensureSpeakerExists session
          (detectSpeaker cfg (some session) content now).speakerId
          (detectSpeaker cfg (some session) content now) now).messages ++
          [{ id := msgId, timestamp := now,
             speakerId := (detectSpeaker cfg (some session) content now).speakerId,
             content := content, isQuestion := isQuestion,
             wordCount := calculateWordCount content,
             keywords := extractKeywords content,
             sentimentScore := calculateSentimentScore content }] }
      st.lastSummaryTime now).1 now
  show ∃ s', lookupSession (updateSessionBy st.storage sid _) sid = some s' ∧ _ ∧ _
  rw [lookupSession_update_self, hlook]
  refine ⟨_, rfl, ?_, ?_⟩
  · rw [hch, hsu]
    rfl
  · rw [hch, hsu]
    rfl

/-- C10: if no current session exists (unset pointer or dangling reference),
`addMessage` starts a fresh active session, makes it current, and appends the
new message — which it returns — as that session's single message; it never
fails for lack of an active session. -/
theorem addMessage_autostarts (cfg : ConversationSystemConfig) (st : ManagerState)
    (content : String) (isQuestion : Bool) (now : Int) (msgId newSessionId : String)
    (hnone : getCurrentSession st.storage = none) :
    (addMessage cfg st content isQuestion now msgId newSessionId).1.storage.currentSessionId =
      some newSessionId ∧
    (addMessage cfg st content isQuestion now msgId newSessionId).2.id = msgId ∧
    (addMessage cfg st content isQuestion now msgId newSessionId).2.content = content ∧
    ∃ s, lookupSession
        (addMessage cfg st content isQuestion now msgId newSessionId).1.storage
        newSessionId = some s ∧
      s.isActive = true ∧
      s.messages = [(addMessage cfg st content isQuestion now msgId newSessionId).2] := by
  have heq := addMessage_none_eq cfg st content isQuestion now msgId newSessionId hnone
  have hcur := startNewSession_current st none newSessionId now
  obtain ⟨ns, hns, hact, hmsgs, -, -⟩ := startNewSession_lookup st none newSessionId now
  have hcore := addMessageCore_eq cfg (startNewSession st none newSessionId now)
    content isQuestion now msgId newSessionId ns hcur hns
  obtain ⟨h1, h2, h3, s', hs', hact', hmsgs'⟩ := addMessageToSession_spec cfg
    (startNewSession st none newSessionId now) content isQuestion now msgId
    newSessionId ns hns
  rw [heq, hcore]
  refine ⟨h1.trans hcur, h2, h3, s', hs', hact'.trans hact, ?_⟩
  rw [hmsgs', hmsgs]
  rfl

/-- C10 witness: on the empty default store, adding a message auto-creates a
current session holding exactly the returned message. -/
theorem addMessage_autostarts_witness :
    (addMessage DEFAULT_CONFIG
        { storage := defaultStorage DEFAULT_CONFIG, lastSummaryTime := none }
        "hello" false 0 "m1" "s1").1.storage.currentSessionId = some "s1" :=
  (addMessage_autostarts DEFAULT_CONFIG
    { storage := defaultStorage DEFAULT_CONFIG, lastSummaryTime := none }
    "hello" false 0 "m1" "s1" (by decide)).1

/-! ### Sortedness of the stable sort -/

lemma insertSortedBy_pairwise {α : Type} (lt : α → α → Bool)
    (hasym : ∀ a b, lt a b = true → lt b a = false)
    (hstep : ∀ x y z, lt x y = true → lt z y = false → lt z x = false) :
    ∀ (l : List α) (x : α), l.Pairwise (fun a b => lt b a = false) →
      (insertSortedBy lt x l).Pairwise (fun a b => lt b a = false) := by
  intro l
  induction l with
  | nil => intro x _; simp [insertSortedBy]
  | cons y ys ih =>
    intro x h
    unfold insertSortedBy
    by_cases hxy : lt x y = true
    · rw [if_pos hxy]
      refine List.Pairwise.cons ?_ h
      intro z hz
      rcases List.mem_cons.mp hz with rfl | hz
      · exact hasym x z hxy
      · exact hstep x y z hxy ((List.pairwise_cons.mp h).1 z hz)
    · rw [if_neg hxy]
      obtain ⟨hy, hys⟩ := List.pairwise_cons.mp h
      refine List.Pairwise.cons ?_ (ih x hys)
      intro z hz
      rw [(insertSortedBy_perm lt x ys).mem_iff] at hz
      rcases List.mem_cons.mp hz with rfl | hz
      · exact Bool.eq_false_iff.mpr hxy
      · exact hy z hz

lemma stableSortBy_pairwise {α : Type} (lt : α → α → Bool)
    (hasym : ∀ a b, lt a b = true → lt b a = false)
    (hstep : ∀ x y z, lt x y = true → lt z y = false → lt z x = false)
    (l : List α) :
    (stableSortBy lt l).Pairwise (fun a b => lt b a = false) := by
  suffices h : ∀ (l acc : List α), acc.Pairwise (fun a b => lt b a = false) →
      (l.foldl (fun a x => insertSortedBy lt x a) acc).Pairwise
        (fun a b => lt b a = false) by
    exact h l [] (List.Pairwise.nil)
  intro l
  induction l with
  | nil => intro acc h; exact h
  | cons x xs ih =>
    intro acc h
    rw [List.foldl_cons]
    exact ih _ (insertSortedBy_pairwise lt hasym hstep acc x h)

lemma find?_filter_of_imp {α : Type} (p q : α → Bool)
    (h : ∀ x, p x = true → q x = true) :
    ∀ l : List α, (l.filter q).find? p = l.find? p := by
  intro l
  induction l with
  | nil => rfl
  | cons x xs ih =>
    by_cases hp : p x = true
    · rw [List.filter_cons_of_pos (h x hp), List.find?_cons_of_pos _ hp,
        List.find?_cons_of_pos _ hp]
    · by_cases hq : q x = true
      · rw [List.filter_cons_of_pos hq, List.find?_cons_of_neg _ (by simp [hp]),
          List.find?_cons_of_neg _ (by simp [hp])]
        exact ih
      · rw [List.filter_cons_of_neg (by simp [hq]), List.find?_cons_of_neg _ (by simp [hp])]
        exact ih

lemma stableSortBy_length {α : Type} (lt : α → α → Bool) (l : List α) :
    (stableSortBy lt l).length = l.length :=
  (stableSortBy_perm lt l).length_eq

lemma cleanupOldSessions_cases (storage : Storage) :
    (storage.sessions.length ≤ 10 ∧ cleanupOldSessions storage = storage) ∨
    (storage.sessions.length > 10 ∧
      (cleanupOldSessions storage).sessions =
        storage.sessions.filter (fun kv => kv.1 ∉
          ((stableSortBy (fun a b => b.2.startTime < a.2.startTime)
            storage.sessions).map (fun kv => kv.1)).drop 10) ∧
      (cleanupOldSessions storage).currentSessionId =
        (match storage.currentSessionId with
          | some cid =>
            if cid ∈ ((stableSortBy (fun a b => b.2.startTime < a.2.startTime)
                storage.sessions).map (fun kv => kv.1)).drop 10 then none else some cid
          | none => none)) := by
  have hlen : ((stableSortBy (fun a b => b.2.startTime < a.2.startTime)
      storage.sessions).map (fun kv => kv.1)).length = storage.sessions.length := by
    rw [List.length_map, stableSortBy_length]
  unfold cleanupOldSessions
  dsimp only
  split
  · rename_i hgt
    right
    rw [hlen] at hgt
    refine ⟨hgt, ?_, ?_⟩
    · split <;> rfl
    · cases hc : storage.currentSessionId with
      | none => simp
      | some cid =>
        dsimp only
        by_cases hmem : cid ∈ ((stableSortBy
            (fun a b => b.2.startTime < a.2.startTime)
            storage.sessions).map (fun kv => kv.1)).drop 10
        · rw [if_pos (by simpa using hmem), if_pos hmem]
        · rw [if_neg (by simpa using hmem), if_neg hmem]
  · rename_i hgt
    left
    rw [hlen] at hgt
    exact ⟨by omega, rfl⟩

/-- C6 (amended): on a quota error the store runs `cleanupOldSessions` and
schedules exactly one retried save. Cleanup retains at most the 10
most-recently-started sessions (every removed session started no later than
every retained one, entries are never modified), and the in-memory current
session returned by `getCurrentSession` is unaffected provided the current
session is among the retained ones. (If the current session is not among
the 10 most recent it is removed and the current pointer cleared.) -/
theorem handleStorageError_quota_cleanup (storage : Storage)
    (hkeys : (storage.sessions.map Prod.fst).Nodup) :
    (handleStorageError .quotaExceeded storage).1 = cleanupOldSessions storage ∧
    (handleStorageError .quotaExceeded storage).2 = true ∧
    (cleanupOldSessions storage).sessions.length ≤ 10 ∧
    (∀ kv ∈ (cleanupOldSessions storage).sessions, kv ∈ storage.sessions) ∧
    (∀ kv ∈ storage.sessions, kv ∉ (cleanupOldSessions storage).sessions →
      ∀ kv' ∈ (cleanupOldSessions storage).sessions, kv.2.startTime ≤ kv'.2.startTime) ∧
    (∀ cid, storage.currentSessionId = some cid →
      (∃ kv ∈ (cleanupOldSessions storage).sessions, kv.1 = cid) →
      (cleanupOldSessions storage).currentSessionId = some cid ∧
      getCurrentSession (cleanupOldSessions storage) = getCurrentSession storage) := by
  refine ⟨rfl, rfl, ?_⟩
  rcases cleanupOldSessions_cases storage with ⟨hle, heq⟩ | ⟨hgt, hsess, hcur⟩
  · refine ⟨by rw [heq]; exact hle, fun kv h => by rwa [heq] at h, ?_, ?_⟩
    · intro kv hkv hnot kv' _
      rw [heq] at hnot
      exact absurd hkv hnot
    · intro cid hc _
      rw [heq]
      exact ⟨hc, rfl⟩
  · have hperm := stableSortBy_perm
      (fun (a b : String × Session) => decide (b.2.startTime < a.2.startTime))
      storage.sessions
    have hasym : ∀ (a b : String × Session),
        decide (b.2.startTime < a.2.startTime) = true →
        decide (a.2.startTime < b.2.startTime) = false := by
      intro a b h
      simp only [decide_eq_true_eq] at h
      simp only [decide_eq_false_iff_not]
      omega
    have hstep : ∀ (x y z : String × Session),
        decide (y.2.startTime < x.2.startTime) = true →
        decide (y.2.startTime < z.2.startTime) = false →
        decide (x.2.startTime < z.2.startTime) = false := by
      intro x y z h1 h2
      simp only [decide_eq_true_eq] at h1
      simp only [decide_eq_false_iff_not] at h2 ⊢
      omega
    have hpw := stableSortBy_pairwise
      (fun (a b : String × Session) => decide (b.2.startTime < a.2.startTime))
      hasym hstep storage.sessions
    -- shorthand for the sorted list and the removed key set
    set S := stableSortBy
      (fun (a b : String × Session) => decide (b.2.startTime < a.2.startTime))
      storage.sessions with hS
    have hremoved : ((S.map (fun kv => kv.1)).drop 10) = (S.drop 10).map (fun kv => kv.1) := by
      rw [List.map_drop]
    -- membership in the kept list
    have hkept : ∀ kv, kv ∈ (cleanupOldSessions storage).sessions ↔
        kv ∈ storage.sessions ∧ kv.1 ∉ (S.map (fun kv => kv.1)).drop 10 := by
      intro kv
      rw [hsess, List.mem_filter]
      simp
    -- a kept entry lies in the first ten of the sorted list
    have hkeptTake : ∀ kv, kv ∈ (cleanupOldSessions storage).sessions → kv ∈ S.take 10 := by
      intro kv hkv
      obtain ⟨hm, hnr⟩ := (hkept kv).mp hkv
      have hmS : kv ∈ S := hperm.mem_iff.mpr hm
      have hmS' : kv ∈ S.take 10 ++ S.drop 10 := by
        rw [List.take_append_drop]
        exact hmS
      rcases List.mem_append.mp hmS' with h | h
      · exact h
      · exact absurd (by rw [hremoved]; exact List.mem_map_of_mem _ h) hnr
    -- a removed entry lies in the tail of the sorted list
    have hremDrop : ∀ kv ∈ storage.sessions,
        kv ∉ (cleanupOldSessions storage).sessions → kv ∈ S.drop 10 := by
      intro kv hm hnot
      have hr : kv.1 ∈ (S.map (fun kv => kv.1)).drop 10 := by
        by_contra hnr
        exact hnot ((hkept kv).mpr ⟨hm, hnr⟩)
      rw [hremoved] at hr
      obtain ⟨kw, hkw, hkwe⟩ := List.mem_map.mp hr
      have hkwS : kw ∈ storage.sessions := hperm.mem_iff.mp (List.mem_of_mem_drop hkw)
      have : kw = kv := List.inj_on_of_nodup_map hkeys hkwS hm hkwe
      rwa [← this]
    refine ⟨?_, ?_, ?_, ?_⟩
    · -- at most ten sessions retained
      have hkeptnd : (cleanupOldSessions storage).sessions.Nodup := by
        rw [hsess]
        exact List.Nodup.of_map Prod.fst
          (List.Nodup.sublist ((List.filter_sublist _).map Prod.fst) hkeys)
      have hsub : (cleanupOldSessions storage).sessions.toFinset ⊆
          (S.take 10).toFinset := by
        intro kv hkv
        rw [List.mem_toFinset] at hkv ⊢
        exact hkeptTake kv hkv
      calc (cleanupOldSessions storage).sessions.length
          = (cleanupOldSessions storage).sessions.toFinset.card :=
            (List.toFinset_card_of_nodup hkeptnd).symm
        _ ≤ (S.take 10).toFinset.card := Finset.card_le_card hsub
        _ ≤ (S.take 10).length := List.toFinset_card_le _
        _ ≤ 10 := List.length_take_le 10 S
    · intro kv hkv
      exact ((hkept kv).mp hkv).1
    · -- every removed session started no later than every retained one
      intro kv hkv hnot kv' hkv'
      have h1 : kv ∈ S.drop 10 := hremDrop kv hkv hnot
      have h2 : kv' ∈ S.take 10 := hkeptTake kv' hkv'
      have hpw' : (S.take 10 ++ S.drop 10).Pairwise
          (fun a b => decide (a.2.startTime < b.2.startTime) = false) := by
        rwa [List.take_append_drop]
      have hrel := (List.pairwise_append.mp hpw').2.2 kv' h2 kv h1
      simp only [decide_eq_false_iff_not] at hrel
      omega
    · intro cid hc hex
      obtain ⟨kv, hkv, hkv1⟩ := hex
      have hnr : cid ∉ (S.map (fun kv => kv.1)).drop 10 := by
        have := ((hkept kv).mp hkv).2
        rwa [hkv1] at this
      have hcur' : (cleanupOldSessions storage).currentSessionId = some cid := by
        rw [hcur, hc]
        exact if_neg hnr
      refine ⟨hcur', ?_⟩
      have hfind : (storage.sessions.filter
          (fun kv => kv.1 ∉ (S.map (fun kv => kv.1)).drop 10)).find?
            (fun kv => kv.1 = cid) =
          storage.sessions.find? (fun kv => kv.1 = cid) := by
        apply find?_filter_of_imp
        intro x hx
        simp only [decide_eq_true_eq] at hx
        simp only [decide_eq_true_eq]
        rw [hx]
        exact hnr
      unfold getCurrentSession
      rw [hcur', hc]
      dsimp only
      unfold lookupSession
      rw [hsess, hfind]

/-- C6 witness: on the eleven-session fixture, cleanup retains at most ten
sessions. -/
theorem handleStorageError_quota_cleanup_witness :
    (cleanupOldSessions c6storage).sessions.length ≤ 10 :=
  (handleStorageError_quota_cleanup c6storage (by decide)).2.2.1

/-- C6 counterexample: when the current session is not among the ten most
recent (reachable via `continueSession` on an old session), the quota
recovery removes it and clears the current pointer, so `getCurrentSession`
is affected by the failure. -/
theorem cleanup_clears_displaced_current :
    (getCurrentSession c6storage).isSome = true ∧
    (handleStorageError .quotaExceeded c6storage).1.currentSessionId = none ∧
    (getCurrentSession (handleStorageError .quotaExceeded c6storage).1).isSome = false := by
  decide

/-! ### Invariant preservation -/

lemma createCompressedMessage_ids (cfg : ConversationSystemConfig) (g : List Message) :
    (createCompressedMessage cfg g).originalMessageIds = g.map (fun m => m.id) := by
  cases g <;> rfl

lemma flatten_sublist {α : Type} {l1 l2 : List (List α)} (h : l1.Sublist l2) :
    l1.flatten.Sublist l2.flatten := by
  induction h with
  | slnil => exact List.Sublist.refl _
  | cons a _ ih => exact ih.trans (List.sublist_append_right a _)
  | cons₂ a _ ih => exact ih.append_left a

lemma groups_pairwise_disjoint (gs : List (List Message))
    (h : (gs.flatten.map (fun m => m.id)).Nodup) :
    gs.Pairwise (fun g1 g2 => ∀ mid ∈ g1.map (fun m => m.id),
      mid ∉ g2.map (fun m => m.id)) := by
  induction gs with
  | nil => exact List.Pairwise.nil
  | cons g rest ih =>
    rw [List.flatten_cons, List.map_append] at h
    obtain ⟨h1, h2, hdisj⟩ := List.nodup_append.mp h
    refine List.Pairwise.cons ?_ (ih h2)
    intro g' hg' mid hmid hmid'
    have hmem2 : mid ∈ (rest.flatten).map (fun m => m.id) := by
      obtain ⟨m, hm, rfl⟩ := List.mem_map.mp hmid'
      exact List.mem_map_of_mem _ (List.mem_flatten.mpr ⟨g', hg', hm⟩)
    exact hdisj hmid hmem2

/-- Every message of a compression group comes from the uncovered part of the
session's raw list. -/
lemma mem_group_uncovered (cfg : ConversationSystemConfig) (session : Session)
    (g : List Message) (m : Message)
    (hg : g ∈ groupMessagesForCompression cfg
      (stableSortBy (fun a b => a.timestamp < b.timestamp)
        (session.messages.filter (fun msg => ¬ isCovered session msg.id))))
    (hm : m ∈ g) :
    isCovered session m.id = false ∧ m ∈ session.messages := by
  have h1 := mem_of_mem_groupMessages cfg _ g m hg hm
  rw [mem_stableSortBy] at h1
  refine ⟨?_, List.mem_of_mem_filter h1⟩
  have hp := List.of_mem_filter h1
  simpa using hp

lemma compressContext_messages (cfg : ConversationSystemConfig) (session : Session) :
    (compressContext cfg session).messages = session.messages := by
  obtain ⟨ch, hch⟩ := compressContext_shape cfg session
  rw [hch]

lemma compressContext_speakers (cfg : ConversationSystemConfig) (session : Session) :
    (compressContext cfg session).speakers = session.speakers := by
  obtain ⟨ch, hch⟩ := compressContext_shape cfg session
  rw [hch]

lemma compressContext_sessionInv (cfg : ConversationSystemConfig) (session : Session)
    (hinv : SessionInv session) : SessionInv (compressContext cfg session) := by
  rcases compressContext_cases cfg session with heq | heq
  · rwa [heq]
  · unfold SessionInv compressionInvariant speakerCountInvariant at hinv ⊢
    obtain ⟨hids, hspks, href, ⟨hpwOld, hsubOld⟩, hcnt⟩ := hinv
    rw [compressContext_messages, compressContext_speakers, heq]
    have hnd : ((stableSortBy (fun a b => a.timestamp < b.timestamp)
        (session.messages.filter (fun msg => ¬ isCovered session msg.id))).map
          (fun m => m.id)).Nodup := by
      have h1 : ((session.messages.filter
          (fun msg => ¬ isCovered session msg.id)).map (fun m => m.id)).Nodup :=
        List.Nodup.sublist ((List.filter_sublist _).map _) hids
      exact (((stableSortBy_perm _ _).map _).nodup_iff).mpr h1
    refine ⟨hids, hspks, href, ⟨?_, ?_⟩, hcnt⟩
    · rw [List.pairwise_append]
      refine ⟨hpwOld, ?_, ?_⟩
      · rw [List.pairwise_map]
        have hflat : (((groupMessagesForCompression cfg
            (stableSortBy (fun a b => a.timestamp < b.timestamp)
              (session.messages.filter
                (fun msg => ¬ isCovered session msg.id)))).flatten).map
            (fun m => m.id)).Nodup := by
          have hsub : (groupMessagesForCompression cfg
              (stableSortBy (fun a b => a.timestamp < b.timestamp)
                (session.messages.filter
                  (fun msg => ¬ isCovered session msg.id)))).flatten.Sublist
              (groupedRaw cfg (stableSortBy (fun a b => a.timestamp < b.timestamp)
                (session.messages.filter
                  (fun msg => ¬ isCovered session msg.id)))).flatten :=
            flatten_sublist (List.filter_sublist _)
          rw [groupedRaw_join] at hsub
          exact List.Nodup.sublist (hsub.map _) hnd
        have hpw := groups_pairwise_disjoint _ hflat
        refine hpw.imp ?_
        intro g1 g2 h mid hmid
        rw [createCompressedMessage_ids] at hmid ⊢
        exact h mid hmid
      · intro g1 hg1 g2 hg2 mid hmid hmem2
        obtain ⟨grp, hgrp, rfl⟩ := List.mem_map.mp hg2
        rw [createCompressedMessage_ids] at hmem2
        obtain ⟨m, hmgrp, hme⟩ := List.mem_map.mp hmem2
        have huncov := (mem_group_uncovered cfg session grp m hgrp hmgrp).1
        have hcov : isCovered session m.id = true := by
          unfold isCovered
          rw [List.any_eq_true]
          refine ⟨g1, hg1, ?_⟩
          rw [hme]
          simpa using hmid
        rw [hcov] at huncov
        exact absurd huncov (by simp)
    · intro g hg mid hmid
      rcases List.mem_append.mp hg with h | h
      · exact hsubOld g h mid hmid
      · obtain ⟨grp, hgrp, rfl⟩ := List.mem_map.mp h
        rw [createCompressedMessage_ids] at hmid
        obtain ⟨m, hmgrp, hme⟩ := List.mem_map.mp hmid
        rw [← hme]
        exact List.mem_map_of_mem _ (mem_group_uncovered cfg session grp m hgrp hmgrp).2

lemma checkForContextCompression_sessionInv (cfg : ConversationSystemConfig)
    (session : Session) (now : Int) (h : SessionInv session) :
    SessionInv (checkForContextCompression cfg session now) := by
  unfold checkForContextCompression
  dsimp only
  split
  · exact h
  · split
    · exact compressContext_sessionInv cfg session h
    · exact h

lemma checkForSummaryGeneration_sessionInv (cfg : ConversationSystemConfig)
    (session : Session) (lst : Option Int) (now : Int) (h : SessionInv session) :
    SessionInv (checkForSummaryGeneration cfg session lst now).1 := by
  obtain ⟨su, hsu⟩ := checkForSummaryGeneration_shape cfg session lst now
  rw [hsu]
  exact h

lemma mem_updateFirstBy {α : Type} (p : α → Bool) (f : α → α) :
    ∀ (l : List α) (x : α), x ∈ updateFirstBy p f l →
      x ∈ l ∨ ∃ y ∈ l, p y = true ∧ x = f y := by
  intro l
  induction l with
  | nil => intro x h; exact absurd h (List.not_mem_nil x)
  | cons a rest ih =>
    intro x h
    unfold updateFirstBy at h
    by_cases ha : p a = true
    · rw [if_pos ha] at h
      rcases List.mem_cons.mp h with rfl | h
      · exact Or.inr ⟨a, List.mem_cons_self _ _, ha, rfl⟩
      · exact Or.inl (List.mem_cons_of_mem _ h)
    · rw [if_neg ha] at h
      rcases List.mem_cons.mp h with rfl | h
      · exact Or.inl (List.mem_cons_self _ _)
      · rcases ih x h with h1 | ⟨y, hy, hpy, hxy⟩
        · exact Or.inl (List.mem_cons_of_mem _ h1)
        · exact Or.inr ⟨y, List.mem_cons_of_mem _ hy, hpy, hxy⟩

lemma updateFirstBy_map_eq {α β : Type} (p : α → Bool) (f : α → α) (g : α → β)
    (hf : ∀ x, g (f x) = g x) :
    ∀ l : List α, (updateFirstBy p f l).map g = l.map g := by
  intro l
  induction l with
  | nil => rfl
  | cons a rest ih =>
    unfold updateFirstBy
    by_cases ha : p a = true
    · rw [if_pos ha]
      simp [hf a]
    · rw [if_neg ha]
      simp [ih]

lemma updateFirstBy_speaker_mem (F : Speaker → Speaker) (speakerId : String)
    (hF : ∀ sp, (F sp).speakerId = sp.speakerId) :
    ∀ l : List Speaker, (l.map (fun sp => sp.speakerId)).Nodup →
      ∀ sp ∈ updateFirstBy (fun s => s.speakerId = speakerId) F l,
        (sp.speakerId ≠ speakerId ∧ sp ∈ l) ∨
        (sp.speakerId = speakerId ∧ ∃ y ∈ l, y.speakerId = speakerId ∧ sp = F y) := by
  intro l
  induction l with
  | nil => intro _ sp h; exact absurd h (List.not_mem_nil sp)
  | cons a rest ih =>
    intro hnd sp hsp
    rw [List.map_cons, List.nodup_cons] at hnd
    unfold updateFirstBy at hsp
    by_cases ha : a.speakerId = speakerId
    · rw [if_pos (by simpa using ha)] at hsp
      rcases List.mem_cons.mp hsp with rfl | hsp
      · exact Or.inr ⟨(hF a).trans ha, a, List.mem_cons_self _ _, ha, rfl⟩
      · left
        refine ⟨?_, List.mem_cons_of_mem _ hsp⟩
        intro hc
        apply hnd.1
        rw [ha, ← hc]
        exact List.mem_map_of_mem _ hsp
    · rw [if_neg (by simpa using ha)] at hsp
      rcases List.mem_cons.mp hsp with rfl | hsp
      · exact Or.inl ⟨ha, List.mem_cons_self _ _⟩
      · rcases ih hnd.2 sp hsp with ⟨h1, h2⟩ | ⟨h1, y, hy, hyk, he⟩
        · exact Or.inl ⟨h1, List.mem_cons_of_mem _ h2⟩
        · exact Or.inr ⟨h1, y, List.mem_cons_of_mem _ hy, hyk, he⟩

lemma ensureSpeakerExists_spec (session : Session) (speakerId : String)
    (dr : SpeakerDetectionResult) (now : Int)
    (hnd : (session.speakers.map (fun sp => sp.speakerId)).Nodup)
    (hcnt : speakerCountInvariant session)
    (href : ∀ m ∈ session.messages,
      m.speakerId ∈ session.speakers.map (fun sp => sp.speakerId)) :
    ((ensureSpeakerExists session speakerId dr now).speakers.map
      (fun sp => sp.speakerId)).Nodup ∧
    (∀ sid ∈ session.speakers.map (fun sp => sp.speakerId),
      sid ∈ (ensureSpeakerExists session speakerId dr now).speakers.map
        (fun sp => sp.speakerId)) ∧
    speakerId ∈ (ensureSpeakerExists session speakerId dr now).speakers.map
      (fun sp => sp.speakerId) ∧
    (∀ sp ∈ (ensureSpeakerExists session speakerId dr now).speakers,
      sp.messageCount =
        (session.messages.filter (fun m => m.speakerId = sp.speakerId)).length +
          (if sp.speakerId = speakerId then 1 else 0)) := by
  have hFkey : ∀ sp : Speaker,
      ((fun speaker => ({ speaker with
          messageCount := speaker.messageCount + 1
          lastActive := now
          characteristics :=
            dedupFirst (speaker.characteristics ++ dr.characteristics) } : Speaker)) sp).speakerId
        = sp.speakerId := fun _ => rfl
  by_cases hany : session.speakers.any (fun s => s.speakerId = speakerId) = true
  · have hres : (ensureSpeakerExists session speakerId dr now).speakers =
        updateFirstBy (fun s => s.speakerId = speakerId)
          (fun speaker => { speaker with
            messageCount := speaker.messageCount + 1
            lastActive := now
            characteristics :=
              dedupFirst (speaker.characteristics ++ dr.characteristics) })
          session.speakers := by
      unfold ensureSpeakerExists
      dsimp only
      rw [if_pos hany]
    have hkeys : (ensureSpeakerExists session speakerId dr now).speakers.map
        (fun sp => sp.speakerId) = session.speakers.map (fun sp => sp.speakerId) := by
      rw [hres, updateFirstBy_map_eq _ _ _ hFkey]
    refine ⟨by rw [hkeys]; exact hnd, ?_, ?_, ?_⟩
    · intro sid hsid
      rw [hkeys]
      exact hsid
    · rw [hkeys]
      obtain ⟨sp, hsp, hkey⟩ := List.any_eq_true.mp hany
      simp only [decide_eq_true_eq] at hkey
      rw [← hkey]
      exact List.mem_map_of_mem _ hsp
    · intro sp hsp
      rw [hres] at hsp
      rcases updateFirstBy_speaker_mem _ speakerId hFkey session.speakers hnd sp hsp with
        ⟨hne, hmem⟩ | ⟨hkey, y, hy, hyk, he⟩
      · rw [if_neg hne, Nat.add_zero]
        exact hcnt sp hmem
      · rw [if_pos hkey, he]
        have h1 : ((fun speaker => ({ speaker with
            messageCount := speaker.messageCount + 1
            lastActive := now
            characteristics :=
              dedupFirst (speaker.characteristics ++ dr.characteristics) } : Speaker)) y).messageCount
            = y.messageCount + 1 := rfl
        rw [h1, hFkey y, hcnt y hy]
  · have hnotin : speakerId ∉ session.speakers.map (fun sp => sp.speakerId) := by
      intro hmem
      obtain ⟨sp, hsp, hkey⟩ := List.mem_map.mp hmem
      exact hany (List.any_eq_true.mpr ⟨sp, hsp, by simpa using hkey⟩)
    have hres : (ensureSpeakerExists session speakerId dr now).speakers =
        updateFirstBy (fun s => s.speakerId = speakerId)
          (fun speaker => { speaker with
            messageCount := speaker.messageCount + 1
            lastActive := now
            characteristics :=
              dedupFirst (speaker.characteristics ++ dr.characteristics) })
          (session.speakers ++
            [{ speakerId := speakerId
               name := "Speaker " ++ toString (session.speakers.length + 1)
               firstDetected := now
               messageCount := 0
               lastActive := now
               characteristics := dr.characteristics }]) := by
      unfold ensureSpeakerExists
      dsimp only
      rw [if_neg hany]
    have hnd1 : ((session.speakers ++
        [({ speakerId := speakerId
            name := "Speaker " ++ toString (session.speakers.length + 1)
            firstDetected := now
            messageCount := 0
            lastActive := now
            characteristics := dr.characteristics } : Speaker)]).map
        (fun sp => sp.speakerId)).Nodup := by
      rw [List.map_append, List.nodup_append]
      refine ⟨hnd, List.nodup_singleton _, ?_⟩
      intro a ha hb
      simp only [List.map_cons, List.map_nil, List.mem_singleton] at hb
      rw [hb] at ha
      exact hnotin ha
    have hkeys : (ensureSpeakerExists session speakerId dr now).speakers.map
        (fun sp => sp.speakerId) =
        session.speakers.map (fun sp => sp.speakerId) ++ [speakerId] := by
      rw [hres, updateFirstBy_map_eq _ _ _ hFkey, List.map_append]
      rfl
    refine ⟨?_, ?_, ?_, ?_⟩
    · rw [hkeys]
      rw [List.nodup_append]
      refine ⟨hnd, List.nodup_singleton _, ?_⟩
      intro a ha hb
      simp only [List.mem_singleton] at hb
      rw [hb] at ha
      exact hnotin ha
    · intro sid hsid
      rw [hkeys]
      exact List.mem_append_left _ hsid
    · rw [hkeys]
      exact List.mem_append_right _ (List.mem_singleton_self _)
    · intro sp hsp
      rw [hres] at hsp
      rcases updateFirstBy_speaker_mem _ speakerId hFkey _ hnd1 sp hsp with
        ⟨hne, hmem⟩ | ⟨hkey, y, hy, hyk, he⟩
      · rcases List.mem_append.mp hmem with hmem | hmem
        · rw [if_neg hne, Nat.add_zero]
          exact hcnt sp hmem
        · rw [List.mem_singleton] at hmem
          exact absurd (by rw [hmem]) hne
      · rcases List.mem_append.mp hy with hy | hy
        · exact absurd (hyk ▸ List.mem_map_of_mem _ hy) hnotin
        · rw [List.mem_singleton] at hy
          have hfil : session.messages.filter
              (fun m => m.speakerId = sp.speakerId) = [] := by
            rw [List.filter_eq_nil_iff]
            intro m hm
            simp only [decide_eq_true_eq]
            intro hc
            rw [hkey] at hc
            exact hnotin (hc ▸ href m hm)
          rw [if_pos hkey, hfil]
          rw [he, hy]
          rfl

lemma sessionInv_congr (s s' : Session) (hm : s'.messages = s.messages)
    (hsp : s'.speakers = s.speakers) (hc : s'.compressedHistory = s.compressedHistory)
    (h : SessionInv s) : SessionInv s' := by
  unfold SessionInv compressionInvariant speakerCountInvariant at h ⊢
  rw [hm, hsp, hc]
  exact h

lemma sessionInv_fresh (sessionId : String) (title : Option String) (now : Int) :
    SessionInv
      { sessionId := sessionId
        startTime := now
        endTime := none
        messages := []
        summaries := []
        speakers := []
        isActive := true
        compressedHistory := []
        title := title.getD ("Conversation " ++ toString now)
        metadata := [("environment", "browser"), ("version", "2.0")] } := by
  unfold SessionInv compressionInvariant speakerCountInvariant
  simp

lemma ensureSpeakerExists_messages (session : Session) (speakerId : String)
    (dr : SpeakerDetectionResult) (now : Int) :
    (ensureSpeakerExists session speakerId dr now).messages = session.messages := rfl

lemma ensureSpeakerExists_compressed (session : Session) (speakerId : String)
    (dr : SpeakerDetectionResult) (now : Int) :
    (ensureSpeakerExists session speakerId dr now).compressedHistory =
      session.compressedHistory := rfl

lemma updateSessionBy_keys (storage : Storage) (sid : String) (f : Session → Session) :
    (updateSessionBy storage sid f).sessions.map Prod.fst =
      storage.sessions.map Prod.fst := by
  show (updateFirstBy (fun kv => kv.1 = sid) (fun kv => (kv.1, f kv.2))
    storage.sessions).map Prod.fst = storage.sessions.map Prod.fst
  exact updateFirstBy_map_eq (fun kv => kv.1 = sid) (fun kv => (kv.1, f kv.2))
    Prod.fst (fun _ => rfl) storage.sessions

lemma updateSessionBy_stateInv (storage : Storage) (sid : String) (f : Session → Session)
    (hS : (storage.sessions.map Prod.fst).Nodup ∧
      ∀ kv ∈ storage.sessions, SessionInv kv.2)
    (hf : ∀ s : Session, SessionInv s → SessionInv (f s)) :
    ((updateSessionBy storage sid f).sessions.map Prod.fst).Nodup ∧
    ∀ kv ∈ (updateSessionBy storage sid f).sessions, SessionInv kv.2 := by
  refine ⟨by rw [updateSessionBy_keys]; exact hS.1, ?_⟩
  intro kv hkv
  rcases mem_updateFirstBy _ _ storage.sessions kv hkv with h | ⟨y, hy, _, he⟩
  · exact hS.2 kv h
  · rw [he]
    exact hf y.2 (hS.2 y hy)

lemma updateCurrentSession_keys (storage : Storage) (f : Session → Session) :
    (updateCurrentSession storage f).sessions.map Prod.fst =
      storage.sessions.map Prod.fst := by
  cases hc : storage.currentSessionId with
  | none => rw [updateCurrentSession_none storage f hc]
  | some cid =>
    cases hl : lookupSession storage cid with
    | none => rw [updateCurrentSession_lookup_none storage f cid hc hl]
    | some s =>
      rw [updateCurrentSession_lookup_some storage f cid s hc hl, updateSessionBy_keys]

lemma updateCurrentSession_stateInv (storage : Storage) (f : Session → Session)
    (hS : (storage.sessions.map Prod.fst).Nodup ∧
      ∀ kv ∈ storage.sessions, SessionInv kv.2)
    (hf : ∀ s : Session, SessionInv s → SessionInv (f s)) :
    ((updateCurrentSession storage f).sessions.map Prod.fst).Nodup ∧
    ∀ kv ∈ (updateCurrentSession storage f).sessions, SessionInv kv.2 := by
  cases hc : storage.currentSessionId with
  | none => rw [updateCurrentSession_none storage f hc]; exact hS
  | some cid =>
    cases hl : lookupSession storage cid with
    | none => rw [updateCurrentSession_lookup_none storage f cid hc hl]; exact hS
    | some s =>
      rw [updateCurrentSession_lookup_some storage f cid s hc hl]
      exact updateSessionBy_stateInv storage cid f hS hf

lemma setSession_fresh (storage : Storage) (sid : String) (s : Session)
    (h : storage.sessions.any (fun kv => kv.1 = sid) = false) :
    (setSession storage sid s).sessions = storage.sessions ++ [(sid, s)] := by
  unfold setSession
  rw [h]
  rfl

lemma lookupSession_mem (storage : Storage) (sid : String) (s : Session)
    (h : lookupSession storage sid = some s) : (sid, s) ∈ storage.sessions := by
  unfold lookupSession at h
  cases hf : storage.sessions.find? (fun kv => kv.1 = sid) with
  | none => rw [hf] at h; exact absurd h (by simp)
  | some kv =>
    rw [hf] at h
    simp only [Option.map_some', Option.some.injEq] at h
    have hkv := List.mem_of_find?_eq_some hf
    have hp := List.find?_some hf
    simp only [decide_eq_true_eq] at hp
    have he : kv = (sid, s) := Prod.ext hp h
    rw [← he]
    exact hkv

lemma startNewSession_stateInv (st : ManagerState) (title : Option String)
    (sessionId : String) (now : Int)
    (hfresh : ∀ kv ∈ st.storage.sessions, kv.1 ≠ sessionId)
    (hS : StateInv st) : StateInv (startNewSession st title sessionId now) := by
  obtain ⟨hkeys, hall⟩ := hS
  have h1 := updateCurrentSession_stateInv st.storage
    (fun s => { s with endTime := some now, isActive := false }) ⟨hkeys, hall⟩
    (fun s hs => sessionInv_congr s _ rfl rfl rfl hs)
  have hk1 : (updateCurrentSession st.storage
      (fun s => { s with endTime := some now, isActive := false })).sessions.map Prod.fst =
      st.storage.sessions.map Prod.fst := updateCurrentSession_keys _ _
  have hany : ((updateCurrentSession st.storage
      (fun s => { s with endTime := some now, isActive := false })).sessions.any
      (fun kv => kv.1 = sessionId)) = false := by
    rw [List.any_eq_false]
    intro kv hkv
    simp only [decide_eq_true_eq]
    intro hc
    have hmem : sessionId ∈ st.storage.sessions.map Prod.fst := by
      rw [← hk1]
      exact hc ▸ List.mem_map_of_mem Prod.fst hkv
    obtain ⟨kv0, hkv0, hkey0⟩ := List.mem_map.mp hmem
    exact hfresh kv0 hkv0 hkey0
  have hsessions : (startNewSession st title sessionId now).storage.sessions =
      (updateCurrentSession st.storage
        (fun s => { s with endTime := some now, isActive := false })).sessions ++
      [(sessionId,
        { sessionId := sessionId
          startTime := now
          endTime := none
          messages := []
          summaries := []
          speakers := []
          isActive := true
          compressedHistory := []
          title := title.getD ("Conversation " ++ toString now)
          metadata := [("environment", "browser"), ("version", "2.0")] })] := by
    show (setSession
      { updateCurrentSession st.storage
          (fun s => { s with endTime := some now, isActive := false }) with
        currentSessionId := some sessionId } sessionId _).sessions = _
    have hany2 : ({ updateCurrentSession st.storage
        (fun s => { s with endTime := some now, isActive := false }) with
      currentSessionId := some sessionId } : Storage).sessions.any
        (fun kv => kv.1 = sessionId) = false := hany
    rw [setSession_fresh _ _ _ hany2]
  refine ⟨?_, ?_⟩
  · rw [hsessions, List.map_append, hk1]
    rw [List.nodup_append]
    refine ⟨hkeys, List.nodup_singleton _, ?_⟩
    intro a ha hb
    simp only [List.map_cons, List.map_nil, List.mem_singleton] at hb
    obtain ⟨kv0, hkv0, hkey0⟩ := List.mem_map.mp ha
    exact hfresh kv0 hkv0 (hkey0.trans hb)
  · intro kv hkv
    rw [hsessions] at hkv
    rcases List.mem_append.mp hkv with h | h
    · exact h1.2 kv h
    · rw [List.mem_singleton] at h
      rw [h]
      exact sessionInv_fresh sessionId title now

lemma continueSession_stateInv (st : ManagerState) (sessionId : String) (now : Int)
    (hS : StateInv st) : StateInv (continueSession st sessionId now).1 := by
  obtain ⟨hkeys, hall⟩ := hS
  cases hl : lookupSession st.storage sessionId with
  | none =>
    have he : continueSession st sessionId now = (st, false) := by
      unfold continueSession
      rw [hl]
    rw [he]
    exact ⟨hkeys, hall⟩
  | some s =>
    have he : (continueSession st sessionId now).1 =
        { storage := updateSessionBy
            { updateCurrentSession st.storage
                (fun s => { s with endTime := some now, isActive := false }) with
              currentSessionId := some sessionId } sessionId
            (fun s => { s with isActive := true, endTime := none })
          lastSummaryTime := some now } := by
      unfold continueSession
      rw [hl]
    rw [he]
    have h1 := updateCurrentSession_stateInv st.storage
      (fun s => { s with endTime := some now, isActive := false }) ⟨hkeys, hall⟩
      (fun s hs => sessionInv_congr s _ rfl rfl rfl hs)
    exact updateSessionBy_stateInv
      { updateCurrentSession st.storage
          (fun s => { s with endTime := some now, isActive := false }) with
        currentSessionId := some sessionId } sessionId
      (fun s => { s with isActive := true, endTime := none }) h1
      (fun s hs => sessionInv_congr s _ rfl rfl rfl hs)

lemma endCurrentSession_stateInv (st : ManagerState) (now : Int)
    (hS : StateInv st) : StateInv (endCurrentSession st now) := by
  obtain ⟨hkeys, hall⟩ := hS
  cases hc : getCurrentSession st.storage with
  | none =>
    have he : endCurrentSession st now = st := by
      unfold endCurrentSession
      rw [hc]
    rw [he]
    exact ⟨hkeys, hall⟩
  | some s =>
    have he : endCurrentSession st now =
        { st with storage :=
            { updateCurrentSession st.storage
                (fun s => { s with endTime := some now, isActive := false }) with
              currentSessionId := none } } := by
      unfold endCurrentSession
      rw [hc]
    rw [he]
    exact updateCurrentSession_stateInv st.storage
      (fun s => { s with endTime := some now, isActive := false }) ⟨hkeys, hall⟩
      (fun s hs => sessionInv_congr s _ rfl rfl rfl hs)

lemma cleanupOldSessions_stateInv (storage : Storage)
    (hS : (storage.sessions.map Prod.fst).Nodup ∧
      ∀ kv ∈ storage.sessions, SessionInv kv.2) :
    ((cleanupOldSessions storage).sessions.map Prod.fst).Nodup ∧
    ∀ kv ∈ (cleanupOldSessions storage).sessions, SessionInv kv.2 := by
  rcases cleanupOldSessions_cases storage with ⟨-, he⟩ | ⟨-, he, -⟩
  · rw [he]
    exact hS
  · rw [he]
    refine ⟨?_, ?_⟩
    · exact List.Nodup.sublist (List.Sublist.map Prod.fst (List.filter_sublist _)) hS.1
    · intro kv hkv
      exact hS.2 kv (List.mem_of_mem_filter hkv)

lemma appendMessage_sessionInv (session : Session) (dr : SpeakerDetectionResult)
    (now : Int) (msgId content : String) (isQuestion : Bool)
    (hinv : SessionInv session)
    (hfresh : ∀ m ∈ session.messages, m.id ≠ msgId) :
    SessionInv { ensureSpeakerExists session dr.speakerId dr now with
      messages := (ensureSpeakerExists session dr.speakerId dr now).messages ++
        [{ id := msgId, timestamp := now, speakerId := dr.speakerId,
           content := content, isQuestion := isQuestion,
           wordCount := calculateWordCount content,
           keywords := extractKeywords content,
           sentimentScore := calculateSentimentScore content }] } := by
  obtain ⟨hmnd, hsnd, href, hcomp, hcnt⟩ := hinv
  obtain ⟨hnd1, hsub, hmem, hcount⟩ :=
    ensureSpeakerExists_spec session dr.speakerId dr now hsnd hcnt href
  unfold SessionInv compressionInvariant speakerCountInvariant
  dsimp only
  rw [ensureSpeakerExists_messages, ensureSpeakerExists_compressed]
  refine ⟨?_, hnd1, ?_, ⟨hcomp.1, ?_⟩, ?_⟩
  · rw [List.map_append, List.nodup_append]
    refine ⟨hmnd, List.nodup_singleton _, ?_⟩
    intro a ha hb
    simp only [List.map_cons, List.map_nil, List.mem_singleton] at hb
    obtain ⟨m, hm, hid⟩ := List.mem_map.mp ha
    exact hfresh m hm (hid.trans hb)
  · intro m hm
    rcases List.mem_append.mp hm with h | h
    · exact hsub m.speakerId (href m h)
    · rw [List.mem_singleton] at h
      rw [h]
      exact hmem
  · intro g hg mid hmid
    rw [List.map_append]
    exact List.mem_append_left _ (hcomp.2 g hg mid hmid)
  · intro sp hsp
    have hlen : (List.filter (fun m => m.speakerId = sp.speakerId)
        [({ id := msgId, timestamp := now, speakerId := dr.speakerId,
            content := content, isQuestion := isQuestion,
            wordCount := calculateWordCount content,
            keywords := extractKeywords content,
            sentimentScore := calculateSentimentScore content } : Message)]).length =
        if sp.speakerId = dr.speakerId then 1 else 0 := by
      by_cases h : sp.speakerId = dr.speakerId
      · rw [if_pos h]
        simp [List.filter_cons, h]
      · rw [if_neg h]
        have hne : ¬ (dr.speakerId = sp.speakerId) := fun hc => h hc.symm
        simp [List.filter_cons, hne]
    rw [List.filter_append, List.length_append, hlen]
    exact hcount sp hsp

lemma addMessageToSession_stateInv (cfg : ConversationSystemConfig) (st : ManagerState)
    (content : String) (isQuestion : Bool) (now : Int) (msgId : String)
    (sid : String) (session : Session)
    (hS : StateInv st)
    (hmem : (sid, session) ∈ st.storage.sessions)
    (hfresh : ∀ m ∈ session.messages, m.id ≠ msgId) :
    StateInv (addMessageToSession cfg st content isQuestion now msgId sid session).1 := by
  have hinv : SessionInv session := hS.2 (sid, session) hmem
  have h2 := appendMessage_sessionInv session
    (detectSpeaker cfg (some session) content now) now msgId content isQuestion hinv hfresh
  have h3 := checkForSummaryGeneration_sessionInv cfg _ st.lastSummaryTime now h2
  have h4 := checkForContextCompression_sessionInv cfg _ now h3
  show ((updateSessionBy st.storage sid _).sessions.map Prod.fst).Nodup ∧
    ∀ kv ∈ (updateSessionBy st.storage sid _).sessions, SessionInv kv.2
  exact updateSessionBy_stateInv st.storage sid _ ⟨hS.1, hS.2⟩ (fun _ _ => h4)

lemma addMessage_stateInv (cfg : ConversationSystemConfig) (st : ManagerState)
    (content : String) (isQuestion : Bool) (now : Int) (msgId newSessionId : String)
    (hS : StateInv st)
    (hfreshMsg : ∀ kv ∈ st.storage.sessions, ∀ m ∈ kv.2.messages, m.id ≠ msgId)
    (hfreshSession : ∀ kv ∈ st.storage.sessions, kv.1 ≠ newSessionId) :
    StateInv (addMessage cfg st content isQuestion now msgId newSessionId).1 := by
  cases hc : getCurrentSession st.storage with
  | none =>
    rw [addMessage_none_eq cfg st content isQuestion now msgId newSessionId hc]
    have hS1 : StateInv (startNewSession st none newSessionId now) :=
      startNewSession_stateInv st none newSessionId now hfreshSession hS
    obtain ⟨ns, hns, hact, hmsgs, -, -⟩ := startNewSession_lookup st none newSessionId now
    rw [addMessageCore_eq cfg _ content isQuestion now msgId newSessionId ns
      (startNewSession_current st none newSessionId now) hns]
    exact addMessageToSession_stateInv cfg _ content isQuestion now msgId newSessionId ns
      hS1 (lookupSession_mem _ _ _ hns)
      (fun m hm => absurd (hmsgs ▸ hm) (List.not_mem_nil m))
  | some s =>
    have haeq : addMessage cfg st content isQuestion now msgId newSessionId =
        addMessageCore cfg st content isQuestion now msgId := by
      unfold addMessage
      rw [hc]
    cases hcid : st.storage.currentSessionId with
    | none =>
      exact absurd hc (by unfold getCurrentSession; rw [hcid]; exact fun h => by cases h)
    | some sid =>
      have hl : lookupSession st.storage sid = some s := by
        unfold getCurrentSession at hc
        rw [hcid] at hc
        exact hc
      rw [haeq, addMessageCore_eq cfg st content isQuestion now msgId sid s hcid hl]
      exact addMessageToSession_stateInv cfg st content isQuestion now msgId sid s hS
        (lookupSession_mem _ _ _ hl)
        (hfreshMsg (sid, s) (lookupSession_mem _ _ _ hl))

lemma initial_stateInv (cfg : ConversationSystemConfig) :
    StateInv (initialManagerState cfg) :=
  ⟨List.nodup_nil, fun kv hkv => absurd hkv (List.not_mem_nil kv)⟩

lemma step_stateInv (cfg : ConversationSystemConfig) {st st' : ManagerState}
    (h : Step cfg st st') (hS : StateInv st) : StateInv st' := by
  cases h with
  | startNew title sessionId now hfresh =>
    exact startNewSession_stateInv st title sessionId now hfresh hS
  | add content isQuestion now msgId newSessionId hM hSid =>
    exact addMessage_stateInv cfg st content isQuestion now msgId newSessionId hS hM hSid
  | continueS sessionId now =>
    exact continueSession_stateInv st sessionId now hS
  | endCur now =>
    exact endCurrentSession_stateInv st now hS
  | cleanup =>
    exact cleanupOldSessions_stateInv st.storage ⟨hS.1, hS.2⟩

lemma reachable_stateInv (cfg : ConversationSystemConfig) {st : ManagerState}
    (h : Reachable cfg st) : StateInv st := by
  induction h with
  | refl => exact initial_stateInv cfg
  | tail hclos hstep ih => exact step_stateInv cfg hstep ih

/-- C3: in every reachable state, every stored session satisfies the compression
bookkeeping invariant — the `originalMessageIds` of its compressed groups are
pairwise disjoint, and every referenced id is the id of a message still present
in the session's raw message list. -/
theorem reachable_compression_invariant (cfg : ConversationSystemConfig)
    (st : ManagerState) (h : Reachable cfg st) :
    ∀ kv ∈ st.storage.sessions, compressionInvariant kv.2 :=
  fun kv hkv => ((reachable_stateInv cfg h).2 kv hkv).2.2.2.1

/-- C3 witness: a concrete two-step run (start a session, add a message) lands in
a state whose stored session satisfies the compression invariant. -/
theorem reachable_compression_invariant_witness :
    compressionInvariant
      (((addMessage DEFAULT_CONFIG
          (startNewSession (initialManagerState DEFAULT_CONFIG) none "s1" 0)
          "hello there" false 1000 "m1" "sX").1).storage.sessions.headD
        ("s1", c2session)).2 :=
  reachable_compression_invariant DEFAULT_CONFIG _
    (Relation.ReflTransGen.tail
      (Relation.ReflTransGen.tail Relation.ReflTransGen.refl
        (Step.startNew (initialManagerState DEFAULT_CONFIG) none "s1" 0 (by decide)))
      (Step.add (startNewSession (initialManagerState DEFAULT_CONFIG) none "s1" 0)
        "hello there" false 1000 "m1" "sX" (by decide) (by decide)))
    _ (by decide)

/-- C9 counterexample: `loadFromStorage` migrates timestamps only and performs no
`messageCount` validation, so loading a persisted document whose speaker claims
five messages over an empty message list yields a stored session that violates
the speaker-count invariant. -/
theorem loadFromStorage_skips_count_validation :
    ∃ kv ∈ (loadFromStorage DEFAULT_CONFIG (some c9stored)).sessions,
      ¬ speakerCountInvariant kv.2 := by
  have hsess : (loadFromStorage DEFAULT_CONFIG (some c9stored)).sessions =
      [("s1", migrateStoredSession c9storedSession)] := rfl
  rw [hsess]
  refine ⟨("s1", migrateStoredSession c9storedSession), List.mem_singleton_self _, ?_⟩
  intro hcnt
  have hsp : ({ speakerId := "speaker_1", name := "Speaker 1",
                firstDetected := parseDate "0", messageCount := 5,
                lastActive := parseDate "0", characteristics := [] } : Speaker) ∈
      (migrateStoredSession c9storedSession).speakers :=
    List.mem_singleton_self _
  have h5 := hcnt _ hsp
  exact absurd h5 (by decide)

/-- C9 (amended): in every state reachable from a fresh load through the public
operations, every speaker's `messageCount` equals the number of the session's
messages carrying its `speakerId`; the persistence load path itself performs no
such validation. -/
theorem reachable_speaker_counts (cfg : ConversationSystemConfig)
    (st : ManagerState) (h : Reachable cfg st) :
    ∀ kv ∈ st.storage.sessions, speakerCountInvariant kv.2 :=
  fun kv hkv => ((reachable_stateInv cfg h).2 kv hkv).2.2.2.2

/-- C9 witness: a concrete two-step run (start a session, add a message) lands in
a state whose stored session satisfies the speaker-count invariant. -/
theorem reachable_speaker_counts_witness :
    speakerCountInvariant
      (((addMessage DEFAULT_CONFIG
          (startNewSession (initialManagerState DEFAULT_CONFIG) none "t1" 5)
          "good morning" false 2000 "m7" "tX").1).storage.sessions.headD
        ("t1", w1session)).2 :=
  reachable_speaker_counts DEFAULT_CONFIG _
    (Relation.ReflTransGen.tail
      (Relation.ReflTransGen.tail Relation.ReflTransGen.refl
        (Step.startNew (initialManagerState DEFAULT_CONFIG) none "t1" 5 (by decide)))
      (Step.add (startNewSession (initialManagerState DEFAULT_CONFIG) none "t1" 5)
        "good morning" false 2000 "m7" "tX" (by decide) (by decide)))
    _ (by decide)
